import Mathlib

/-!
# echo-app: token helper (`util/jwsHelper.go`) and service registry (`app/app.go`)

A shallow embedding of the two Go source files.

* Go `error` values are `Option GoError` (`none` is `nil`).
* Go strings are `String`; what the JSON text of a token does to a string (bytes that are not
  valid UTF-8 are replaced) is the parameter `readStr` of `JwtLib`.
* `int64` values are `Int`; the one addition of the source (`now + Timeout`) wraps with `wrap64`.
* `time.Now().Unix()` is an input: every operation receives the readings its successive clock
  calls obtain, in call order.
* The calls into `github.com/dgrijalva/jwt-go` (v3), `github.com/pkg/errors` and `strconv` are
  embedded from those libraries; RSA signing, base64url/JSON text and the hashids codec
  (`EncodeInt64`/`DecodeInt64`, a file of the package that is not among the sources) are
  parameters (`JwtLib`, `HashIds`).
-/

namespace Echo

/-! ## Go errors and `github.com/pkg/errors` -/

/-- The kind of a `*strconv.NumError`: `ErrSyntax` or `ErrRange`. -/
inductive strconv.NumErr where
  | errSyn
  | errRange
  deriving DecidableEq

/-- A non-nil Go error: a message, a validation error of jwt-go (message and flag bits), a
`*strconv.NumError`, or an error wrapped with a message by `errors.Wrap`. -/
inductive GoError where
  | msg (text : String)
  | validation (text : String) (flags : Nat)
  | numError (kind : strconv.NumErr) (num : String)
  | wrapped (cause : GoError) (text : String)
  deriving DecidableEq

namespace errors

/-- The function `errors.Wrap(err, message)`: "If err is nil, Wrap returns nil." -/
def Wrap (err : Option GoError) (message : String) : Option GoError :=
  match err with
  | none => none
  | some e => some (GoError.wrapped e message)

/-- The function `errors.Errorf(format, args...)`: always a non-nil error (the formatted
arguments are not modelled, the text is the format string). -/
def Errorf (format : String) : Option GoError :=
  some (GoError.msg format)

end errors

/-! ## int64 -/

/-- Two's-complement wrap of an integer into the int64 range. -/
def wrap64 (x : Int) : Int := (x + 2 ^ 63) % 2 ^ 64 - 2 ^ 63

/-- The int64 range. -/
def isInt64 (x : Int) : Prop := -(2 ^ 63) ≤ x ∧ x < 2 ^ 63

instance (x : Int) : Decidable (isInt64 x) := by unfold isInt64; infer_instance

/-! ## `strconv.FormatInt(i, 10)` and `strconv.ParseInt(s, 10, 64)` -/

namespace strconv

/-- The byte `'0' + d`. -/
def digitChar (d : Nat) : Char := Char.ofNat (48 + d)

/-- The base-10 loop of `formatBits`:
`for u >= 10 { q := u / 10; a[i] = '0' + u - q*10; u = q }; a[i] = '0' + u`,
writing right to left in front of `acc`. `fuel` bounds the iterations. -/
def formatLoop : Nat → Nat → List Char → List Char
  | 0, u, acc => digitChar (u % 10) :: acc
  | fuel + 1, u, acc =>
    if u ≥ 10 then formatLoop fuel (u / 10) (digitChar (u - (u / 10) * 10) :: acc)
    else digitChar u :: acc

/-- Decimal digits of an unsigned value, most significant first. -/
def formatBits (u : Nat) : List Char := formatLoop u u []

/-- The function `strconv.FormatInt(i, 10)`: a minus sign for a negative value, then the digits
of its magnitude. -/
def FormatInt (i : Int) : String :=
  if i < 0 then String.mk ('-' :: formatBits i.natAbs) else String.mk (formatBits i.natAbs)

def maxUint64 : Nat := 2 ^ 64 - 1

/-- The constant `cutoff = maxUint64/10 + 1` of `ParseUint` for base 10. -/
def cutoff10 : Nat := maxUint64 / 10 + 1

/-- The digit value `ParseUint` assigns to a byte: `c - '0'` for a decimal digit,
`lower(c) - 'a' + 10` for a letter, none otherwise (the underscore is only skipped when
`base == 0`, which is not the case here). -/
def digitVal (c : Char) : Option Nat :=
  if 48 ≤ c.toNat ∧ c.toNat ≤ 57 then some (c.toNat - 48)
  else if 97 ≤ (c.toNat ||| 32) ∧ (c.toNat ||| 32) ≤ 122 then
    some ((c.toNat ||| 32) - 97 + 10)
  else none

/-- The loop of `strconv.ParseUint(s, 10, 64)` over the bytes of `s`, from accumulator `n`. -/
def parseUintLoop : List Char → Nat → Nat × Option NumErr
  | [], n => (n, none)
  | c :: cs, n =>
    match digitVal c with
    | none => (0, some NumErr.errSyn)
    | some d =>
      if d ≥ 10 then (0, some NumErr.errSyn)
      else if n ≥ cutoff10 then (maxUint64, some NumErr.errRange)
      else
        let n10 := n * 10
        let n1 := (n10 + d) % 2 ^ 64
        if n1 < n10 ∨ n1 > maxUint64 then (maxUint64, some NumErr.errRange)
        else parseUintLoop cs n1

/-- The function `strconv.ParseUint(s, 10, 64)`. -/
def ParseUint (s : List Char) : Nat × Option NumErr :=
  match s with
  | [] => (0, some NumErr.errSyn)
  | _ => parseUintLoop s 0

/-- The end of `strconv.ParseInt(s, 10, 64)`, after `un, err = ParseUint(s, base, bitSize)`:
a syntax error is returned as it is; otherwise (no error, or a range error) the value is checked
against `cutoff = 1 << 63` and negated for a minus sign. -/
def signedResult (neg : Bool) (un : Nat) (err : Option NumErr) : Int × Option NumErr :=
  match err with
  | some NumErr.errSyn => (0, some NumErr.errSyn)
  | _ =>
    let cutoff : Nat := 2 ^ 63
    if neg = false ∧ un ≥ cutoff then ((cutoff : Int) - 1, some NumErr.errRange)
    else if neg = true ∧ un > cutoff then (-(cutoff : Int), some NumErr.errRange)
    else
      let n := wrap64 (un : Int)
      (if neg = true then wrap64 (-n) else n, none)

/-- The function `strconv.ParseInt(s, 10, 64)`: the empty string is a syntax error; a leading
sign is picked off, the rest goes through `ParseUint`. -/
def ParseInt (s : String) : Int × Option NumErr :=
  match s.data with
  | [] => (0, some NumErr.errSyn)
  | c :: rest =>
    let neg := decide (c = '-')
    let body := if c = '+' ∨ c = '-' then rest else c :: rest
    signedResult neg (ParseUint body).1 (ParseUint body).2

end strconv

/-! ## `github.com/dgrijalva/jwt-go` (v3): claims -/

namespace jwt

/-- A JSON value as the verifier holds it in a `map[string]interface{}`: a string, a number
(carried as the int64 that the library obtains from it with `int64(float64)`), or anything
else (bool, null, array, object). -/
inductive JVal where
  | str (s : String)
  | num (n : Int)
  | other
  deriving DecidableEq

/-- The type `jwt.MapClaims`, a `map[string]interface{}`, as an association list read by its
first binding of a key. -/
abbrev MapClaims := List (String × JVal)

/-- The type `jwt.StandardClaims`; every field is tagged `omitempty` in its JSON form. -/
structure StandardClaims where
  Audience : String
  ExpiresAt : Int
  Id : String
  IssuedAt : Int
  Issuer : String
  NotBefore : Int
  Subject : String
  deriving DecidableEq

/-- The JSON member a string field tagged `omitempty` produces: none for the empty string.
`readStr` is the string a verifier reads back from the written one. -/
def strMember (readStr : String → String) (key value : String) : MapClaims :=
  if value = "" then [] else [(key, JVal.str (readStr value))]

/-- The JSON member an int64 field tagged `omitempty` produces: none for zero. `readNum` is the
int64 a verifier reads back from the written number. -/
def numMember (readNum : Int → Int) (key : String) (value : Int) : MapClaims :=
  if value = 0 then [] else [(key, JVal.num (readNum value))]

/-- What `json.Marshal` of a `StandardClaims` decodes to as `MapClaims`: the members in field
order, empty strings and zero numbers left out, every string and number as the verifier reads
it back. -/
def decodedClaims (readStr : String → String) (readNum : Int → Int) (c : StandardClaims) :
    MapClaims :=
  strMember readStr "aud" c.Audience ++ numMember readNum "exp" c.ExpiresAt ++
    strMember readStr "jti" c.Id ++ numMember readNum "iat" c.IssuedAt ++
    strMember readStr "iss" c.Issuer ++ numMember readNum "nbf" c.NotBefore ++
    strMember readStr "sub" c.Subject

/-- The decoded claims of a `StandardClaims` whose strings are read back unchanged (as every
valid UTF-8 string is). -/
def jsonView (readNum : Int → Int) (c : StandardClaims) : MapClaims :=
  decodedClaims (fun s => s) readNum c

/-- The map index expression `m[key]`. -/
def MapClaims.get (m : MapClaims) (key : String) : Option JVal := List.lookup key m

/-- The expression `s, _ := m[key].(string)`: the string, or the empty string. -/
def MapClaims.str (m : MapClaims) (key : String) : String :=
  match m.get key with
  | some (JVal.str s) => s
  | _ => ""

/-- The function `subtle.ConstantTimeCompare`: 1 when the byte strings are equal, else 0. -/
def ConstantTimeCompare (x y : String) : Nat := if x = y then 1 else 0

def verifyAud (aud cmp : String) (required : Bool) : Bool :=
  if aud = "" then !required
  else if ConstantTimeCompare aud cmp ≠ 0 then true else false

def verifyExp (exp now : Int) (required : Bool) : Bool :=
  if exp = 0 then !required else decide (now ≤ exp)

def verifyIat (iat now : Int) (required : Bool) : Bool :=
  if iat = 0 then !required else decide (now ≥ iat)

def verifyIss (iss cmp : String) (required : Bool) : Bool :=
  if iss = "" then !required
  else if ConstantTimeCompare iss cmp ≠ 0 then true else false

def verifyNbf (nbf now : Int) (required : Bool) : Bool :=
  if nbf = 0 then !required else decide (now ≥ nbf)

def MapClaims.VerifyAudience (m : MapClaims) (cmp : String) (req : Bool) : Bool :=
  verifyAud (m.str "aud") cmp req

def MapClaims.VerifyExpiresAt (m : MapClaims) (cmp : Int) (req : Bool) : Bool :=
  match m.get "exp" with
  | some (JVal.num exp) => verifyExp exp cmp req
  | _ => req == false

def MapClaims.VerifyIssuedAt (m : MapClaims) (cmp : Int) (req : Bool) : Bool :=
  match m.get "iat" with
  | some (JVal.num iat) => verifyIat iat cmp req
  | _ => req == false

def MapClaims.VerifyIssuer (m : MapClaims) (cmp : String) (req : Bool) : Bool :=
  verifyIss (m.str "iss") cmp req

def MapClaims.VerifyNotBefore (m : MapClaims) (cmp : Int) (req : Bool) : Bool :=
  match m.get "nbf" with
  | some (JVal.num nbf) => verifyNbf nbf cmp req
  | _ => req == false

/-- The type `jwt.ValidationError`: the inner message (empty for none) and the flag bits. -/
structure ValidationError where
  Inner : String
  Errors : Nat
  deriving DecidableEq

def ValidationErrorSignatureInvalid : Nat := 4
def ValidationErrorExpired : Nat := 16
def ValidationErrorIssuedAt : Nat := 32
def ValidationErrorNotValidYet : Nat := 128

/-- The method `ValidationError.valid`: no flag is set. -/
def ValidationError.valid (e : ValidationError) : Bool := e.Errors == 0

/-- The accumulation `MapClaims.Valid` performs with the clock reading `now`: expiry, issued-at
and not-before, none of them required. -/
def MapClaims.validationOf (m : MapClaims) (now : Int) : ValidationError :=
  let v0 : ValidationError := ⟨"", 0⟩
  let v1 := if m.VerifyExpiresAt now false == false
    then ⟨"Token is expired", v0.Errors ||| ValidationErrorExpired⟩ else v0
  let v2 := if m.VerifyIssuedAt now false == false
    then ⟨"Token used before issued", v1.Errors ||| ValidationErrorIssuedAt⟩ else v1
  let v3 := if m.VerifyNotBefore now false == false
    then ⟨"Token is not valid yet", v2.Errors ||| ValidationErrorNotValidYet⟩ else v2
  v3

/-- The method `MapClaims.Valid()`, reading the clock once (`now`): nil when the accumulated
validation error has no flag set. -/
def MapClaims.Valid (m : MapClaims) (now : Int) : Option ValidationError :=
  let vErr := m.validationOf now
  if vErr.valid then none else some vErr

end jwt

/-! ## `crypto/rsa` keys and the parts of jwt-go that are parameters -/

/-- The type `rsa.PublicKey`. -/
structure RsaPublicKey where
  N : Nat
  E : Nat
  deriving DecidableEq

/-- The type `rsa.PrivateKey` (public part and private exponent). -/
structure RsaPrivateKey where
  PublicKey : RsaPublicKey
  D : Nat
  deriving DecidableEq

namespace jwt

/-- What `Parser.ParseUnverified` obtains from a token string: the `alg` of the header, the
claims decoded as `MapClaims`, and the segments `parts[0] + "." + parts[1]` and `parts[2]`. -/
structure Unverified where
  alg : String
  claims : MapClaims
  signingInput : String
  signature : String
  deriving DecidableEq

/-- The text and cryptographic layer of jwt-go, which the embedding does not fix:
* `signingString c`: `Token.SigningString()` for an RS256 token with claims `c`;
* `sign s key`: `SigningMethodRS256.Sign(s, key)`;
* `parseUnverified t`: `Parser.ParseUnverified(t, MapClaims{})` (segment split, base64url, JSON,
  lookup of the signing method);
* `verify alg s sig key`: `token.Method.Verify(s, sig, key)` for the method named `alg`;
* `readStr s`: the string read back from the JSON string written for `s`; `json.Marshal`
  replaces bytes that are not valid UTF-8 by U+FFFD, so only valid UTF-8 is read back unchanged;
* `readNum n`: the int64 read back (through float64) from the JSON number written for `n`. -/
structure JwtLib where
  signingString : StandardClaims → String
  sign : String → Option RsaPrivateKey → Except GoError String
  parseUnverified : String → Except GoError Unverified
  verify : String → String → String → Option RsaPublicKey → Option GoError
  readStr : String → String
  readNum : Int → Int

/-- The type `jwt.Token` after parsing, as far as `ParseToken` reads it. -/
structure Token where
  Claims : MapClaims
  Signature : String
  Valid : Bool
  deriving DecidableEq

/-- The method `Token.SignedString(key)` of a token made by
`jwt.NewWithClaims(jwt.SigningMethodRS256, &claims)`. -/
def SignedString (lib : JwtLib) (claims : StandardClaims) (key : Option RsaPrivateKey) :
    String × Option GoError :=
  let sstr := lib.signingString claims
  match lib.sign sstr key with
  | Except.error e => ("", some e)
  | Except.ok sig => (sstr ++ "." ++ sig, none)

/-- The function `jwt.Parse(tokenString, keyFunc)` (that is `Parser.ParseWithClaims` with
`MapClaims{}`) for a key function that returns `key` and no error; `now` is the clock reading
of its claims validation. -/
def Parse (lib : JwtLib) (key : Option RsaPublicKey) (now : Int) (tokenString : String) :
    Except GoError Token :=
  match lib.parseUnverified tokenString with
  | Except.error e => Except.error e
  | Except.ok u =>
    let vErr : ValidationError :=
      match u.claims.Valid now with
      | some e => e
      | none => ⟨"", 0⟩
    let vErr : ValidationError :=
      match lib.verify u.alg u.signingInput u.signature key with
      | some _ => ⟨"signature is invalid", vErr.Errors ||| ValidationErrorSignatureInvalid⟩
      | none => vErr
    if vErr.valid then Except.ok ⟨u.claims, u.signature, true⟩
    else Except.error (GoError.validation vErr.Inner vErr.Errors)

end jwt

/-! ## `util/jwsHelper.go` -/

structure JwsHelperOpt where
  Audience : String
  Issuer : String
  Timeout : Int
  PublicKeyPath : String
  PrivateKeyPath : String
  HashIdsSalt : String
  deriving DecidableEq

structure JwsHelper where
  opt : JwsHelperOpt
  publicKey : Option RsaPublicKey
  privateKey : Option RsaPrivateKey
  deriving DecidableEq

/-- The file system and PEM parsers `NewJwsHelper` calls: `ReadFile path` is the data
`ioutil.ReadFile` returns (its error is dropped by the caller, so only the data figures),
the two parsers are `jwt.ParseRSAPrivateKeyFromPEM` and `jwt.ParseRSAPublicKeyFromPEM`. -/
structure KeyEnv where
  ReadFile : String → List UInt8
  ParseRSAPrivateKeyFromPEM : List UInt8 → Except GoError RsaPrivateKey
  ParseRSAPublicKeyFromPEM : List UInt8 → Except GoError RsaPublicKey

def NewJwsHelper (env : KeyEnv) (opt : JwsHelperOpt) : Option JwsHelper × Option GoError :=
  let jwsHelper : JwsHelper := ⟨opt, none, none⟩
  let priv : Except GoError JwsHelper :=
    if opt.PrivateKeyPath ≠ "" then
      let keyData := env.ReadFile opt.PrivateKeyPath
      match env.ParseRSAPrivateKeyFromPEM keyData with
      | Except.error err => Except.error err
      | Except.ok k => Except.ok { jwsHelper with privateKey := some k }
    else Except.ok jwsHelper
  match priv with
  | Except.error err => (none, errors.Wrap (some err) "ParseRSAPrivateKeyFromPEM")
  | Except.ok jwsHelper =>
    if opt.PublicKeyPath ≠ "" then
      let keyData := env.ReadFile opt.PublicKeyPath
      match env.ParseRSAPublicKeyFromPEM keyData with
      | Except.error err => (none, errors.Wrap (some err) "ParseRSAPrivateKeyFromPEM")
      | Except.ok k => (some { jwsHelper with publicKey := some k }, none)
    else (some jwsHelper, none)

/-- The functions `EncodeInt64(id, salt)` and `DecodeInt64(hash, salt)` of the package, whose
file is not among the sources: taken as parameters. -/
structure HashIds where
  EncodeInt64 : Int → String → Except GoError String
  DecodeInt64 : String → String → Except GoError Int

/-- The first half of `CreateToken`: the subject id string, then the claims literal. The clock
is read for `ExpiresAt` first (`now0`) and for `IssuedAt` second (`now1`). -/
def createClaims (h : HashIds) (jws : JwsHelper) (now0 now1 : Int) (userId : Int)
    (payload : String) : Except GoError jwt.StandardClaims :=
  let userIdHash : Except GoError String :=
    if jws.opt.HashIdsSalt ≠ "" then h.EncodeInt64 userId jws.opt.HashIdsSalt
    else Except.ok (strconv.FormatInt userId)
  match userIdHash with
  | Except.error err => Except.error err
  | Except.ok userIdHash =>
    Except.ok {
      Audience := jws.opt.Audience
      ExpiresAt := wrap64 (now0 + jws.opt.Timeout)
      Id := userIdHash
      IssuedAt := now1
      Issuer := jws.opt.Issuer
      NotBefore := 0
      Subject := payload }

def CreateToken (lib : jwt.JwtLib) (h : HashIds) (jws : JwsHelper) (now0 now1 : Int)
    (userId : Int) (payload : String) : String × Option GoError :=
  match createClaims h jws now0 now1 userId payload with
  | Except.error err => ("", errors.Wrap (some err) "hashids.EncodeInt64")
  | Except.ok claims => jwt.SignedString lib claims jws.privateKey

/-- Lines 103-113 of `ParseToken`: the subject id string back to the user id, by
`DecodeInt64` when a salt is configured and by `strconv.ParseInt(s, 10, 64)` otherwise; the
error is the wrapped one the function returns. -/
def decodeUserId (h : HashIds) (jws : JwsHelper) (userIdStr : String) : Int × Option GoError :=
  if jws.opt.HashIdsSalt ≠ "" then
    match h.DecodeInt64 userIdStr jws.opt.HashIdsSalt with
    | Except.error e => (0, errors.Wrap (some e) "hashids.EncodeInt64")
    | Except.ok userId => (userId, none)
  else
    match strconv.ParseInt userIdStr with
    | (userId, none) => (userId, none)
    | (_, some k) => (0, errors.Wrap (some (GoError.numError k userIdStr)) "strconv.ParseInt")

/-- The function `ParseToken`; `now0` is the clock reading inside `jwt.Parse`, `now1` the one
of the second `token.Claims.Valid()`. The type assertion `token.Claims.(jwt.MapClaims)` always
holds for a token of `jwt.Parse`, so its failure branch does not figure. -/
def ParseToken (lib : jwt.JwtLib) (h : HashIds) (jws : JwsHelper) (now0 now1 : Int)
    (tokenStr : String) : Int × String × Option GoError :=
  match jwt.Parse lib jws.publicKey now0 tokenStr with
  | Except.error e => (0, "", errors.Wrap (some e) "jwt.Parse")
  | Except.ok token =>
    let err : Option GoError := none
    if (token.Claims.Valid now1).isSome then (0, "", errors.Wrap err "token.Claims.Valid()")
    else
      let claim := token.Claims
      if !claim.VerifyAudience jws.opt.Audience true then
        (0, "", errors.Errorf "claim.VerifyAudience: %+v")
      else if !claim.VerifyIssuer jws.opt.Issuer true then
        (0, "", errors.Errorf "claim.VerifyIssuer: %+v")
      else
        match claim.get "jti" with
        | some (jwt.JVal.str userIdStr) =>
          match decodeUserId h jws userIdStr with
          | (_, some e) => (0, "", some e)
          | (userId, none) =>
            match claim.get "sub" with
            | some (jwt.JVal.str payload) => (userId, payload, none)
            | _ => (0, "", errors.Errorf "claim is not StandardClaims sub is not string: %+v")
        | _ => (0, "", errors.Errorf "claim is not StandardClaims: %+v")

/-! ## `app/app.go`: the registry -/

namespace app

/-- A non-nil reference to a constructed object (a service, the pool, a database handle, a
token helper), named by a number. -/
structure Ref where
  addr : Nat
  deriving DecidableEq

/-- The struct `EchoApp`: a nil field is `none`. -/
structure EchoApp where
  areaSvc : Option Ref
  smsSvc : Option Ref
  UserSvr : Option Ref
  dbPool : Option Ref
  resourceSvc : Option Ref
  goodsSvc : Option Ref
  orderSvc : Option Ref
  deriving DecidableEq

/-- The calls the registry makes into the packages `services` and `components`. -/
inductive Ext where
  | NewAreaService
  | NewSmsService
  | NewDbPool
  | Db (dbname : String)
  | NewJwsHelper
  | NewUserService
  | NewResourceService
  | NewGoodsService
  | NewOrderService
  deriving DecidableEq

/-- The constructors of `services` and `components`, which are not among the sources. Each
takes the number of external calls made before it, so that its outcome may differ from one call
to the next; a constructor that returns no error returns a non-nil object. -/
structure Services where
  NewAreaService : Nat → Except GoError Ref
  NewSmsService : Nat → Ref
  NewDbPool : Nat → Ref
  Db : Nat → Ref → String → Except GoError Ref
  NewJwsHelper : Nat → Except GoError Ref
  NewUserService : Nat → Ref → Ref → Ref
  NewResourceService : Nat → Ref → Ref
  NewGoodsService : Nat → Ref → Ref
  NewOrderService : Nat → Ref → Ref

/-- The package state: the variable `App` (set by `init` to an empty `EchoApp`) and the
external calls made so far, oldest first. -/
structure State where
  App : EchoApp
  calls : List Ext
  deriving DecidableEq

/-- The state after `init`. -/
def init : State := ⟨⟨none, none, none, none, none, none, none⟩, []⟩

/-- Record one external call. -/
def State.call (s : State) (c : Ext) : State := { s with calls := s.calls ++ [c] }

def GetAreaService (sv : Services) (s : State) : Except GoError Ref × State :=
  match s.App.areaSvc with
  | some svc => (Except.ok svc, s)
  | none =>
    match sv.NewAreaService s.calls.length with
    | Except.error err =>
      (Except.error (GoError.wrapped err "GetAreaService"), s.call Ext.NewAreaService)
    | Except.ok areaSvc =>
      (Except.ok areaSvc,
        { (s.call Ext.NewAreaService) with App := { s.App with areaSvc := some areaSvc } })

def GetSmsService (sv : Services) (s : State) : Except GoError Ref × State :=
  match s.App.smsSvc with
  | some svc => (Except.ok svc, s)
  | none =>
    let smsSvc := sv.NewSmsService s.calls.length
    (Except.ok smsSvc,
      { (s.call Ext.NewSmsService) with App := { s.App with smsSvc := some smsSvc } })

def GetDb (sv : Services) (dbname : String) (s : State) : Except GoError Ref × State :=
  match s.App.dbPool with
  | some pool => (sv.Db s.calls.length pool dbname, s.call (Ext.Db dbname))
  | none =>
    let dbPool := sv.NewDbPool s.calls.length
    let s1 : State := { (s.call Ext.NewDbPool) with App := { s.App with dbPool := some dbPool } }
    (sv.Db s1.calls.length dbPool dbname, s1.call (Ext.Db dbname))

def GetJwsHelper (sv : Services) (s : State) : Except GoError Ref × State :=
  match sv.NewJwsHelper s.calls.length with
  | Except.error err => (Except.error (GoError.wrapped err "NewJwsHelper"), s.call Ext.NewJwsHelper)
  | Except.ok jws => (Except.ok jws, s.call Ext.NewJwsHelper)

def GetUserService (sv : Services) (s : State) : Except GoError Ref × State :=
  match s.App.UserSvr with
  | some svc => (Except.ok svc, s)
  | none =>
    match GetDb sv "user" s with
    | (Except.error err, s1) => (Except.error (GoError.wrapped err "GetUserSerevice->GetDb"), s1)
    | (Except.ok userDb, s1) =>
      match GetJwsHelper sv s1 with
      | (Except.error err, s2) => (Except.error (GoError.wrapped err "GetJws"), s2)
      | (Except.ok jws, s2) =>
        let svc := sv.NewUserService s2.calls.length userDb jws
        (Except.ok svc,
          { (s2.call Ext.NewUserService) with App := { s2.App with UserSvr := some svc } })

def GetResourceService (sv : Services) (s : State) : Except GoError Ref × State :=
  match s.App.resourceSvc with
  | some svc => (Except.ok svc, s)
  | none =>
    match GetDb sv "user" s with
    | (Except.error err, s1) => (Except.error (GoError.wrapped err "GetResourceService->GetDb"), s1)
    | (Except.ok userDb, s1) =>
      let svc := sv.NewResourceService s1.calls.length userDb
      (Except.ok svc,
        { (s1.call Ext.NewResourceService) with App := { s1.App with resourceSvc := some svc } })

def GetGoodsService (sv : Services) (s : State) : Except GoError Ref × State :=
  match s.App.goodsSvc with
  | some svc => (Except.ok svc, s)
  | none =>
    match GetDb sv "user" s with
    | (Except.error err, s1) => (Except.error (GoError.wrapped err "GetGoodsService->GetDb"), s1)
    | (Except.ok db, s1) =>
      let svc := sv.NewGoodsService s1.calls.length db
      (Except.ok svc,
        { (s1.call Ext.NewGoodsService) with App := { s1.App with goodsSvc := some svc } })

def GetOrderService (sv : Services) (s : State) : Except GoError Ref × State :=
  match s.App.orderSvc with
  | some svc => (Except.ok svc, s)
  | none =>
    match GetDb sv "user" s with
    | (Except.error err, s1) => (Except.error (GoError.wrapped err "GetOrderService->GetDb"), s1)
    | (Except.ok db, s1) =>
      let svc := sv.NewOrderService s1.calls.length db
      (Except.ok svc,
        { (s1.call Ext.NewOrderService) with App := { s1.App with orderSvc := some svc } })

/-- The six service getters of the registry. -/
inductive Getter where
  | area
  | sms
  | user
  | resource
  | goods
  | order
  deriving DecidableEq

/-- One call of a service getter. -/
def Getter.run (sv : Services) : Getter → State → Except GoError Ref × State
  | Getter.area => GetAreaService sv
  | Getter.sms => GetSmsService sv
  | Getter.user => GetUserService sv
  | Getter.resource => GetResourceService sv
  | Getter.goods => GetGoodsService sv
  | Getter.order => GetOrderService sv

/-- The field of `EchoApp` a getter caches its service in. -/
def Getter.field : Getter → EchoApp → Option Ref
  | Getter.area, a => a.areaSvc
  | Getter.sms, a => a.smsSvc
  | Getter.user, a => a.UserSvr
  | Getter.resource, a => a.resourceSvc
  | Getter.goods, a => a.goodsSvc
  | Getter.order, a => a.orderSvc

/-- The constructor a getter calls for its own service. -/
def Getter.ctor : Getter → Ext
  | Getter.area => Ext.NewAreaService
  | Getter.sms => Ext.NewSmsService
  | Getter.user => Ext.NewUserService
  | Getter.resource => Ext.NewResourceService
  | Getter.goods => Ext.NewGoodsService
  | Getter.order => Ext.NewOrderService

/-- Any call into the registry: a service getter, `GetDb(dbname)` or `GetJwsHelper()`. -/
inductive Op where
  | get (g : Getter)
  | db (dbname : String)
  | jws
  deriving DecidableEq

/-- The state after one registry call. -/
def Op.step (sv : Services) : Op → State → State
  | Op.get g, s => (g.run sv s).2
  | Op.db dbname, s => (GetDb sv dbname s).2
  | Op.jws, s => (GetJwsHelper sv s).2

/-- The state after a sequence of registry calls. -/
def runOps (sv : Services) (ops : List Op) (s : State) : State :=
  ops.foldl (fun st op => op.step sv st) s

end app

/-! ## Decimal numerals, as the specification words them -/

namespace strconv

/-- A decimal digit. -/
def isDecimalDigit (c : Char) : Bool :=
  decide (c ∈ ['0', '1', '2', '3', '4', '5', '6', '7', '8', '9'])

/-- The number a string of decimal digits denotes, continuing from `n`. -/
def decimalValue (ds : List Char) (n : Nat) : Nat :=
  ds.foldl (fun acc c => 10 * acc + (c.toNat - 48)) n

/-- One or more decimal digits denoting a number that is at most `bound`. -/
def isDigitsUpTo (bound : Nat) (ds : List Char) : Bool :=
  !ds.isEmpty && ds.all isDecimalDigit && decide (decimalValue ds 0 ≤ bound)

/-- A decimal int64 numeral: an optional sign, then one or more decimal digits, denoting a
value between `-2^63` and `2^63 - 1`. -/
def isDecimalInt64 (s : String) : Bool :=
  match s.data with
  | [] => false
  | c :: rest =>
    if c = '+' then isDigitsUpTo (2 ^ 63 - 1) rest
    else if c = '-' then isDigitsUpTo (2 ^ 63) rest
    else isDigitsUpTo (2 ^ 63 - 1) (c :: rest)

end strconv

/-! ## Concrete instances used to evaluate the code -/

namespace sample

/-- A small RSA key pair (n = 61 * 53). -/
def publicKey : RsaPublicKey := ⟨3233, 17⟩

def privateKey : RsaPrivateKey := ⟨publicKey, 413⟩

/-- A library instance with a single token string, `"h.c.s"`: every claims value is written as
`"h.c"`, signed as `"s"` by `privateKey`, the string `"h.c.s"` decodes to the RS256 token with
claims `m`, and the signature `"s"` verifies under `publicKey` only. Strings and numbers are
read back unchanged. -/
def lib (m : jwt.MapClaims) : jwt.JwtLib where
  signingString := fun _ => "h.c"
  sign := fun _ key =>
    if key = some privateKey then Except.ok "s" else Except.error (GoError.msg "key is invalid")
  parseUnverified := fun t =>
    if t = "h.c.s" then Except.ok ⟨"RS256", m, "h.c", "s"⟩
    else Except.error (GoError.validation "token contains an invalid number of segments" 1)
  verify := fun alg _ sig key =>
    if alg = "RS256" ∧ sig = "s" ∧ key = some publicKey then none
    else some (GoError.msg "crypto/rsa: verification error")
  readStr := fun s => s
  readNum := fun n => n

/-- A codec that is never called (no salt is configured in the samples). -/
def noHashIds : HashIds where
  EncodeInt64 := fun _ _ => Except.error (GoError.msg "no codec")
  DecodeInt64 := fun _ _ => Except.error (GoError.msg "no codec")

/-- Options with audience, issuer and lifetime, no salt. -/
def opt (aud iss : String) (timeout : Int) : JwsHelperOpt :=
  ⟨aud, iss, timeout, "pub.pem", "priv.pem", ""⟩

/-- A helper holding the sample key pair. -/
def helper (aud iss : String) (timeout : Int) : JwsHelper :=
  ⟨opt aud iss timeout, some publicKey, some privateKey⟩

/-- The claims `CreateToken(42, "session-payload")` builds at clock reading 100 under audience
`"app"`, issuer `"svc"` and lifetime 3600, as the verifier decodes them. -/
def goodClaims : jwt.MapClaims :=
  jwt.jsonView (fun n => n) ⟨"app", 3700, "42", 100, "svc", 0, "session-payload"⟩

/-- Hand-made claims: audience `"app"`, issuer `"svc"`, subject id `"42"`, payload
`"session-payload"` and the given further members. -/
def claimsWith (more : jwt.MapClaims) : jwt.MapClaims :=
  [("aud", jwt.JVal.str "app"), ("iss", jwt.JVal.str "svc"), ("jti", jwt.JVal.str "42"),
    ("sub", jwt.JVal.str "session-payload")] ++ more

/-- Constructors for the registry: `NewAreaService` fails when it is the very first external
call and succeeds afterwards; every other constructor succeeds; each new object is named by
the time of its construction. -/
def services : app.Services where
  NewAreaService := fun t =>
    if t = 0 then Except.error (GoError.msg "area root missing") else Except.ok ⟨t⟩
  NewSmsService := fun t => ⟨t⟩
  NewDbPool := fun t => ⟨t⟩
  Db := fun t _ _ => Except.ok ⟨t⟩
  NewJwsHelper := fun t => Except.ok ⟨t⟩
  NewUserService := fun t _ _ => ⟨t⟩
  NewResourceService := fun t _ => ⟨t⟩
  NewGoodsService := fun t _ => ⟨t⟩
  NewOrderService := fun t _ => ⟨t⟩

end sample

/-! ## Theorems -/

/-! ### `strconv` -/

namespace strconv

theorem digitVal_of_isDecimalDigit (c : Char) (hc : isDecimalDigit c = true) :
    digitVal c = some (c.toNat - 48) ∧ c.toNat - 48 < 10 := by
  simp only [isDecimalDigit, decide_eq_true_eq, List.mem_cons, List.mem_singleton,
    List.mem_nil_iff, or_false] at hc
  rcases hc with rfl | rfl | rfl | rfl | rfl | rfl | rfl | rfl | rfl | rfl <;> decide

theorem isDecimalDigit_of_digitVal (c : Char) (d : Nat) (hd : digitVal c = some d)
    (hlt : d < 10) : isDecimalDigit c = true ∧ d = c.toNat - 48 := by
  unfold digitVal at hd
  split_ifs at hd with h1 h2
  · have hc : c = Char.ofNat c.toNat := (Char.ofNat_toNat c).symm
    refine ⟨?_, by simpa using hd.symm⟩
    obtain ⟨hlo, hhi⟩ := h1
    generalize c.toNat = n at hc hlo hhi
    subst hc
    interval_cases n <;> decide
  · simp only [Option.some.injEq] at hd
    omega

theorem le_decimalValue (ds : List Char) (n : Nat) : n ≤ decimalValue ds n := by
  induction ds generalizing n with
  | nil => simp [decimalValue]
  | cons c cs ih =>
    have := ih (10 * n + (c.toNat - 48))
    simp only [decimalValue, List.foldl_cons] at this ⊢
    omega

/-- The loop of `ParseUint` returns no error only on decimal digits whose value fits uint64, and
then returns that value. -/
theorem parseUintLoop_none (cs : List Char) (n : Nat)
    (h : (parseUintLoop cs n).2 = none) :
    cs.all isDecimalDigit = true ∧ (parseUintLoop cs n).1 = decimalValue cs n ∧
      decimalValue cs n < 2 ^ 64 ∨ 2 ^ 64 ≤ n := by
  induction cs generalizing n with
  | nil =>
    by_cases hn : n < 2 ^ 64
    · exact Or.inl ⟨rfl, rfl, hn⟩
    · right; omega
  | cons c cs ih =>
    by_cases hn : 2 ^ 64 ≤ n
    · exact Or.inr hn
    left
    unfold parseUintLoop at h ⊢
    cases hd : digitVal c with
    | none => simp [hd] at h
    | some d =>
      simp only [hd] at h ⊢
      by_cases h10 : d ≥ 10
      · simp [h10] at h
      · simp only [h10, if_false] at h ⊢
        by_cases hcut : n ≥ cutoff10
        · simp [hcut] at h
        · simp only [hcut, if_false] at h ⊢
          have hcut2 : n < 1844674407370955162 := by
            simp only [cutoff10, maxUint64] at hcut; omega
          have hmod : (n * 10 + d) % 2 ^ 64 = n * 10 + d ∨
              (n * 10 + d) % 2 ^ 64 < n * 10 := by omega
          by_cases hov : (n * 10 + d) % 2 ^ 64 < n * 10 ∨ (n * 10 + d) % 2 ^ 64 > maxUint64
          · rw [if_pos hov] at h
            cases h
          · rw [if_neg hov] at h ⊢
            have hfit : (n * 10 + d) % 2 ^ 64 = n * 10 + d := by
              rcases hmod with hm | hm
              · exact hm
              · exact absurd (Or.inl hm) hov
            rw [hfit] at h ⊢
            obtain ⟨hdig, hdeq⟩ := isDecimalDigit_of_digitVal c d hd (by omega)
            rcases ih (n * 10 + d) h with ⟨hall, hval, hlt⟩ | hbig
            · refine ⟨by simp [hdig, hall], ?_, ?_⟩
              · rw [hval]; simp [decimalValue, hdeq, Nat.mul_comm]
              · simpa [decimalValue, hdeq, Nat.mul_comm] using hlt
            · have : (n * 10 + d) % 2 ^ 64 < 2 ^ 64 := Nat.mod_lt _ (by norm_num)
              omega

/-- On decimal digits whose value fits uint64 the loop of `ParseUint` returns that value. -/
theorem parseUintLoop_digits (cs : List Char) (n : Nat)
    (hall : cs.all isDecimalDigit = true) (hlt : decimalValue cs n < 2 ^ 64) :
    parseUintLoop cs n = (decimalValue cs n, none) := by
  induction cs generalizing n with
  | nil => simp [parseUintLoop, decimalValue]
  | cons c cs ih =>
    simp only [List.all_cons, Bool.and_eq_true] at hall
    obtain ⟨hd, hd10⟩ := digitVal_of_isDecimalDigit c hall.1
    have hstep : decimalValue (c :: cs) n = decimalValue cs (n * 10 + (c.toNat - 48)) := by
      simp [decimalValue, Nat.mul_comm]
    rw [hstep] at hlt ⊢
    have hge := le_decimalValue cs (n * 10 + (c.toNat - 48))
    have hfit : (n * 10 + (c.toNat - 48)) % 2 ^ 64 = n * 10 + (c.toNat - 48) :=
      Nat.mod_eq_of_lt (by omega)
    unfold parseUintLoop
    simp only [hd]
    have h10 : ¬ (c.toNat - 48 ≥ 10) := by omega
    have hcut : ¬ (n ≥ cutoff10) := by simp only [cutoff10, maxUint64]; omega
    have hov : ¬ ((n * 10 + (c.toNat - 48)) % 2 ^ 64 < n * 10 ∨
        (n * 10 + (c.toNat - 48)) % 2 ^ 64 > maxUint64) := by
      rw [hfit]; simp only [maxUint64]; omega
    simp only [h10, hcut, hov, if_false]
    rw [hfit]
    exact ih _ hall.2 hlt

/-- A range error of the loop of `ParseUint` comes with the value `maxUint64`. -/
theorem parseUintLoop_range (cs : List Char) (n : Nat)
    (h : (parseUintLoop cs n).2 = some NumErr.errRange) :
    (parseUintLoop cs n).1 = maxUint64 := by
  induction cs generalizing n with
  | nil => simp [parseUintLoop] at h
  | cons c cs ih =>
    unfold parseUintLoop at h ⊢
    cases hd : digitVal c with
    | none => simp [hd] at h
    | some d =>
      simp only [hd] at h ⊢
      split_ifs at h ⊢ with h1 h2 h3
      · simp at h
      · rfl
      · rfl
      · exact ih _ h

/-- The three outcomes of `ParseUint`. -/
theorem ParseUint_cases (cs : List Char) :
    (ParseUint cs).2 = some NumErr.errSyn ∨
      ((ParseUint cs).2 = some NumErr.errRange ∧ (ParseUint cs).1 = maxUint64) ∨
      ((ParseUint cs).2 = none ∧ cs ≠ [] ∧ cs.all isDecimalDigit = true ∧
        (ParseUint cs).1 = decimalValue cs 0 ∧ decimalValue cs 0 < 2 ^ 64) := by
  cases cs with
  | nil => left; rfl
  | cons c cs =>
    have hP : ParseUint (c :: cs) = parseUintLoop (c :: cs) 0 := rfl
    rw [hP]
    cases he : (parseUintLoop (c :: cs) 0).2 with
    | none =>
      right; right
      rcases parseUintLoop_none (c :: cs) 0 he with ⟨h1, h2, h3⟩ | hbig
      · exact ⟨rfl, by simp, h1, h2, h3⟩
      · exact absurd hbig (by norm_num)
    | some k =>
      cases k with
      | errSyn => left; rfl
      | errRange => right; left; exact ⟨rfl, parseUintLoop_range _ _ he⟩

theorem ParseUint_digits (cs : List Char) (hne : cs ≠ [])
    (hall : cs.all isDecimalDigit = true) (hlt : decimalValue cs 0 < 2 ^ 64) :
    ParseUint cs = (decimalValue cs 0, none) := by
  cases cs with
  | nil => exact absurd rfl hne
  | cons c cs => exact parseUintLoop_digits (c :: cs) 0 hall hlt

theorem wrap64_of_lt (v : Nat) (h : v < 2 ^ 63) : wrap64 (v : Int) = v := by
  unfold wrap64
  omega

theorem wrap64_neg_of_le (v : Nat) (h : v ≤ 2 ^ 63) :
    wrap64 (-(wrap64 (v : Int))) = -(v : Int) := by
  unfold wrap64
  omega

/-- The end of `ParseInt` returns no error exactly when `ParseUint` returned none and the value
is within the signed range; it then returns the signed value. -/
theorem signedResult_spec (neg : Bool) (un : Nat) (err : Option NumErr)
    (hrange : err = some NumErr.errRange → un = maxUint64) :
    ((signedResult neg un err).2 = none ↔
      err = none ∧ un ≤ (if neg = true then 2 ^ 63 else 2 ^ 63 - 1)) ∧
    ((signedResult neg un err).2 = none →
      (signedResult neg un err).1 = if neg = true then -(un : Int) else (un : Int)) := by
  unfold signedResult
  cases err with
  | some k =>
    cases k with
    | errSyn => simp
    | errRange =>
      have hun := hrange rfl
      simp only [maxUint64] at hun
      subst hun
      cases neg <;> simp
  | none =>
    cases neg with
    | false =>
      simp
      split_ifs with hc
      · simp
        omega
      · simp
        exact ⟨by omega, wrap64_of_lt un (by omega)⟩
    | true =>
      simp
      split_ifs with hc
      · simp
        omega
      · simp
        exact ⟨by omega, wrap64_neg_of_le un (by omega)⟩

theorem isDigitsUpTo_iff (b : Nat) (body : List Char) :
    isDigitsUpTo b body = true ↔
      body ≠ [] ∧ body.all isDecimalDigit = true ∧ decimalValue body 0 ≤ b := by
  cases body <;> simp [isDigitsUpTo]

/-- The function `ParseInt` on a string whose first byte is `c`: with `body` the bytes after the
sign, it returns no error exactly when `body` is one or more digits within the signed range,
and then the signed value of `body`. -/
theorem ParseInt_body (s : String) (c : Char) (rest : List Char) (hs : s.data = c :: rest) :
    ((ParseInt s).2 = none ↔
      isDigitsUpTo (if c = '-' then 2 ^ 63 else 2 ^ 63 - 1)
        (if c = '+' ∨ c = '-' then rest else c :: rest) = true) ∧
    ((ParseInt s).2 = none →
      (ParseInt s).1 =
        if c = '-' then -(decimalValue (if c = '+' ∨ c = '-' then rest else c :: rest) 0 : Int)
        else (decimalValue (if c = '+' ∨ c = '-' then rest else c :: rest) 0 : Int)) := by
  have hP : ParseInt s = signedResult (decide (c = '-'))
      (ParseUint (if c = '+' ∨ c = '-' then rest else c :: rest)).1
      (ParseUint (if c = '+' ∨ c = '-' then rest else c :: rest)).2 := by
    unfold ParseInt
    rw [hs]
  rw [hP]
  generalize (if c = '+' ∨ c = '-' then rest else c :: rest) = body
  have hcases := ParseUint_cases body
  have hrange : (ParseUint body).2 = some NumErr.errRange → (ParseUint body).1 = maxUint64 := by
    intro hr
    rcases hcases with h | ⟨_, h⟩ | ⟨h, _⟩
    · rw [hr] at h; cases h
    · exact h
    · rw [hr] at h; cases h
  obtain ⟨hiff, hval⟩ := signedResult_spec (decide (c = '-')) _ _ hrange
  have hb : (if decide (c = '-') = true then 2 ^ 63 else 2 ^ 63 - 1)
      = (if c = '-' then 2 ^ 63 else 2 ^ 63 - 1) := by
    by_cases hc : c = '-' <;> simp [hc]
  rw [hb] at hiff
  constructor
  · rw [hiff, isDigitsUpTo_iff]
    constructor
    · rintro ⟨hnone, hle⟩
      rcases hcases with h | ⟨h, _⟩ | ⟨_, hne, hall, hv, _⟩
      · rw [hnone] at h; cases h
      · rw [hnone] at h; cases h
      · exact ⟨hne, hall, by rw [← hv]; exact hle⟩
    · rintro ⟨hne, hall, hle⟩
      have hlt : decimalValue body 0 < 2 ^ 64 := by
        split_ifs at hle <;> omega
      rw [ParseUint_digits body hne hall hlt]
      exact ⟨rfl, hle⟩
  · intro hnone
    rw [hval hnone]
    have hnone2 := (hiff.1 hnone).1
    rcases hcases with h | ⟨h, _⟩ | ⟨_, _, _, hv, _⟩
    · rw [hnone2] at h; cases h
    · rw [hnone2] at h; cases h
    · rw [hv]
      by_cases hc : c = '-' <;> simp [hc]

/-- The function `ParseInt` returns no error exactly on the decimal int64 numerals. -/
theorem ParseInt_none_iff (s : String) : (ParseInt s).2 = none ↔ isDecimalInt64 s = true := by
  unfold isDecimalInt64
  cases hs : s.data with
  | nil =>
    have : ParseInt s = (0, some NumErr.errSyn) := by unfold ParseInt; rw [hs]
    simp [this]
  | cons c rest =>
    rw [(ParseInt_body s c rest hs).1]
    by_cases hp : c = '+'
    · subst hp; simp
    · by_cases hm : c = '-'
      · subst hm; simp
      · simp [hp, hm]

theorem digitChar_spec (d : Nat) (hd : d < 10) :
    isDecimalDigit (digitChar d) = true ∧ (digitChar d).toNat - 48 = d := by
  interval_cases d <;> decide

theorem decimalValue_append_singleton (ds : List Char) (c : Char) :
    decimalValue (ds ++ [c]) 0 = 10 * decimalValue ds 0 + (c.toNat - 48) := by
  simp [decimalValue, List.foldl_append]

/-- The loop of `formatBits` writes, in front of `acc`, one or more decimal digits that denote
`u`. -/
theorem formatLoop_spec (fuel u : Nat) (acc : List Char) (h : u ≤ fuel) :
    ∃ ds, formatLoop fuel u acc = ds ++ acc ∧ ds ≠ [] ∧ ds.all isDecimalDigit = true ∧
      decimalValue ds 0 = u := by
  induction fuel generalizing u acc with
  | zero =>
    have hu : u = 0 := by omega
    subst hu
    exact ⟨[digitChar 0], rfl, by simp, by decide, by decide⟩
  | succ fuel ih =>
    unfold formatLoop
    by_cases h10 : u ≥ 10
    · rw [if_pos h10]
      obtain ⟨ds, hds, hne, hall, hval⟩ :=
        ih (u / 10) (digitChar (u - u / 10 * 10) :: acc) (by omega)
      obtain ⟨hdig, hdv⟩ := digitChar_spec (u - u / 10 * 10) (by omega)
      refine ⟨ds ++ [digitChar (u - u / 10 * 10)], by simp [hds], by simp, ?_, ?_⟩
      · simp [hall, hdig]
      · rw [decimalValue_append_singleton, hval, hdv]
        omega
    · rw [if_neg h10]
      obtain ⟨hdig, hdv⟩ := digitChar_spec u (by omega)
      refine ⟨[digitChar u], rfl, by simp, by simp [hdig], ?_⟩
      simp [decimalValue, hdv]

theorem formatBits_spec (u : Nat) :
    formatBits u ≠ [] ∧ (formatBits u).all isDecimalDigit = true ∧
      decimalValue (formatBits u) 0 = u := by
  obtain ⟨ds, hds, hne, hall, hval⟩ := formatLoop_spec u u [] (le_refl u)
  unfold formatBits
  rw [hds, List.append_nil]
  exact ⟨hne, hall, hval⟩

theorem FormatInt_ne_empty (i : Int) : FormatInt i ≠ "" := by
  unfold FormatInt
  intro h
  by_cases hneg : i < 0
  · rw [if_pos hneg] at h
    have hd := congrArg String.data h
    simp at hd
  · rw [if_neg hneg] at h
    have hd := congrArg String.data h
    exact (formatBits_spec i.natAbs).1 (by simpa using hd)

/-- The decimal codec: `ParseInt` reads back every int64 that `FormatInt` wrote. -/
theorem ParseInt_FormatInt (i : Int) (hi : isInt64 i) :
    ParseInt (FormatInt i) = (i, none) := by
  obtain ⟨hne, hall, hval⟩ := formatBits_spec i.natAbs
  unfold isInt64 at hi
  by_cases hneg : i < 0
  · have hs : (FormatInt i).data = '-' :: formatBits i.natAbs := by
      unfold FormatInt; rw [if_pos hneg]
    obtain ⟨hiff, hv⟩ := ParseInt_body (FormatInt i) '-' (formatBits i.natAbs) hs
    simp only [or_true, if_true] at hiff hv
    have hnone : (ParseInt (FormatInt i)).2 = none := by
      rw [hiff, isDigitsUpTo_iff]
      exact ⟨hne, hall, by rw [hval]; omega⟩
    have h1 := hv hnone
    rw [hval] at h1
    have : (ParseInt (FormatInt i)).1 = i := by rw [h1]; omega
    exact Prod.ext this hnone
  · have hs : (FormatInt i).data = formatBits i.natAbs := by
      unfold FormatInt; rw [if_neg hneg]
    cases hfb : formatBits i.natAbs with
    | nil => exact absurd hfb hne
    | cons c rest =>
      rw [hfb] at hs hall hval
      have hc : isDecimalDigit c = true := by
        simp only [List.all_cons, Bool.and_eq_true] at hall
        exact hall.1
      have hplus : c ≠ '+' := by
        intro h; subst h; revert hc; decide
      have hminus : c ≠ '-' := by
        intro h; subst h; revert hc; decide
      obtain ⟨hiff, hv⟩ := ParseInt_body (FormatInt i) c rest hs
      simp only [hplus, hminus, or_self, if_false] at hiff hv
      have hnone : (ParseInt (FormatInt i)).2 = none := by
        rw [hiff, isDigitsUpTo_iff]
        exact ⟨by simp, hall, by rw [hval]; omega⟩
      have h1 := hv hnone
      rw [hval] at h1
      have : (ParseInt (FormatInt i)).1 = i := by rw [h1]; omega
      exact Prod.ext this hnone

end strconv

/-! ### Library facts -/

theorem jwt.verifyAud_required (aud cmp : String) :
    jwt.verifyAud aud cmp true = true ↔ aud ≠ "" ∧ aud = cmp := by
  unfold jwt.verifyAud jwt.ConstantTimeCompare
  by_cases h1 : aud = "" <;> by_cases h2 : aud = cmp <;> simp [h1, h2]

theorem jwt.verifyIss_required (iss cmp : String) :
    jwt.verifyIss iss cmp true = true ↔ iss ≠ "" ∧ iss = cmp := by
  unfold jwt.verifyIss jwt.ConstantTimeCompare
  by_cases h1 : iss = "" <;> by_cases h2 : iss = cmp <;> simp [h1, h2]

/-- The validity check passes exactly when its three comparisons pass. -/
theorem jwt.Valid_eq_none (m : jwt.MapClaims) (now : Int) :
    m.Valid now = none ↔
      m.VerifyExpiresAt now false = true ∧ m.VerifyIssuedAt now false = true ∧
        m.VerifyNotBefore now false = true := by
  unfold jwt.MapClaims.Valid jwt.MapClaims.validationOf jwt.ValidationError.valid
  cases m.VerifyExpiresAt now false <;> cases m.VerifyIssuedAt now false <;>
    cases m.VerifyNotBefore now false <;> decide

theorem jwt.lor_four_ne_zero (x : Nat) : x ||| 4 ≠ 0 := by
  intro h
  have h2 := Nat.testBit_or x 4 2
  rw [h] at h2
  simp at h2
  exact absurd h2.2 (by decide)

/-- A validation error returned by the validity check has a flag set. -/
theorem jwt.Valid_some_flags (m : jwt.MapClaims) (now : Int) (v : jwt.ValidationError)
    (hv : m.Valid now = some v) : v.Errors ≠ 0 := by
  unfold jwt.MapClaims.Valid at hv
  dsimp only at hv
  split_ifs at hv with hvalid
  cases hv
  simpa [jwt.ValidationError.valid] using hvalid

/-- The function `jwt.Parse` returns a token exactly when the string decodes, its claims pass
the validity check at the library's clock reading and the signature verifies. -/
theorem jwt.Parse_eq_ok (lib : jwt.JwtLib) (key : Option RsaPublicKey) (now : Int)
    (tokenString : String) (token : jwt.Token) :
    jwt.Parse lib key now tokenString = Except.ok token ↔
      ∃ u, lib.parseUnverified tokenString = Except.ok u ∧ u.claims.Valid now = none ∧
        lib.verify u.alg u.signingInput u.signature key = none ∧
        token = ⟨u.claims, u.signature, true⟩ := by
  unfold jwt.Parse
  cases hu : lib.parseUnverified tokenString with
  | error e => simp
  | ok u =>
    cases hval : u.claims.Valid now with
    | none =>
      cases hver : lib.verify u.alg u.signingInput u.signature key with
      | none =>
        simp only [hval, hver, jwt.ValidationError.valid]
        simp [hval, hver, eq_comm]
      | some e =>
        simp only [hval, hver, jwt.ValidationError.valid]
        simp [hval, hver, jwt.ValidationErrorSignatureInvalid]
    | some v =>
      have hv := jwt.Valid_some_flags _ _ _ hval
      cases hver : lib.verify u.alg u.signingInput u.signature key with
      | none =>
        simp only [hval, hver, jwt.ValidationError.valid]
        simp [hval, hver, hv]
      | some e =>
        simp only [hval, hver, jwt.ValidationError.valid]
        simp [hval, hver, jwt.ValidationErrorSignatureInvalid, jwt.lor_four_ne_zero]

/-- When `jwt.Parse` returns an error, so does `ParseToken`. -/
theorem ParseToken_of_Parse_error (lib : jwt.JwtLib) (h : HashIds) (jws : JwsHelper)
    (now0 now1 : Int) (tokenStr : String) (e : GoError)
    (hparse : jwt.Parse lib jws.publicKey now0 tokenStr = Except.error e) :
    ParseToken lib h jws now0 now1 tokenStr = (0, "", some (GoError.wrapped e "jwt.Parse")) := by
  simp [ParseToken, hparse, errors.Wrap]

/-- What `ParseToken` returns once `jwt.Parse` has returned a token whose claims pass the
second validity check, the audience check and the issuer check. -/
theorem ParseToken_after_gates (lib : jwt.JwtLib) (h : HashIds) (jws : JwsHelper)
    (now0 now1 : Int) (tokenStr : String) (token : jwt.Token)
    (hparse : jwt.Parse lib jws.publicKey now0 tokenStr = Except.ok token)
    (hvalid : token.Claims.Valid now1 = none)
    (haud : token.Claims.VerifyAudience jws.opt.Audience true = true)
    (hiss : token.Claims.VerifyIssuer jws.opt.Issuer true = true) :
    ParseToken lib h jws now0 now1 tokenStr =
      match token.Claims.get "jti" with
      | some (jwt.JVal.str userIdStr) =>
        match decodeUserId h jws userIdStr with
        | (_, some e) => (0, "", some e)
        | (userId, none) =>
          match token.Claims.get "sub" with
          | some (jwt.JVal.str payload) => (userId, payload, none)
          | _ => (0, "", errors.Errorf "claim is not StandardClaims sub is not string: %+v")
      | _ => (0, "", errors.Errorf "claim is not StandardClaims: %+v") := by
  simp [ParseToken, hparse, hvalid, haud, hiss]

/-- Every result of `ParseToken` is `(0, "", err)` or `(userId, payload, nil)`. -/
theorem ParseToken_shape (lib : jwt.JwtLib) (h : HashIds) (jws : JwsHelper)
    (now0 now1 : Int) (tokenStr : String) :
    (∃ e, ParseToken lib h jws now0 now1 tokenStr = (0, "", e)) ∨
      (∃ u p, ParseToken lib h jws now0 now1 tokenStr = (u, p, none)) := by
  unfold ParseToken
  split
  · exact Or.inl ⟨_, rfl⟩
  · dsimp only
    split_ifs
    · exact Or.inl ⟨_, rfl⟩
    · exact Or.inl ⟨_, rfl⟩
    · exact Or.inl ⟨_, rfl⟩
    · split
      · split
        · exact Or.inl ⟨_, rfl⟩
        · split
          · exact Or.inr ⟨_, _, rfl⟩
          · exact Or.inl ⟨_, rfl⟩
      · exact Or.inl ⟨_, rfl⟩

/-- When the second validity check fails, `ParseToken` returns `(0, "", nil)`: the error it
wraps is the nil error of `jwt.Parse`. -/
theorem ParseToken_of_second_Valid_error (lib : jwt.JwtLib) (h : HashIds) (jws : JwsHelper)
    (now0 now1 : Int) (tokenStr : String) (token : jwt.Token) (v : jwt.ValidationError)
    (hparse : jwt.Parse lib jws.publicKey now0 tokenStr = Except.ok token)
    (hvalid : token.Claims.Valid now1 = some v) :
    ParseToken lib h jws now0 now1 tokenStr = (0, "", none) := by
  simp [ParseToken, hparse, hvalid, errors.Wrap]

/-! ### C10: no partial results -/

/-- C10. Whenever `ParseToken` returns a non-nil error, the user id it returns is 0 and the
payload it returns is the empty string, for every token string, configuration, codec, library
behaviour and clock. -/
theorem ParseToken_no_partial_results (lib : jwt.JwtLib) (h : HashIds) (jws : JwsHelper)
    (now0 now1 : Int) (tokenStr : String)
    (herr : (ParseToken lib h jws now0 now1 tokenStr).2.2 ≠ none) :
    (ParseToken lib h jws now0 now1 tokenStr).1 = 0 ∧
      (ParseToken lib h jws now0 now1 tokenStr).2.1 = "" := by
  rcases ParseToken_shape lib h jws now0 now1 tokenStr with ⟨e, he⟩ | ⟨u, p, hp⟩
  · rw [he]; exact ⟨rfl, rfl⟩
  · rw [hp] at herr; exact absurd rfl herr

/-- C10 at a token whose subject id `"42"` decodes and whose payload claim is missing: the
error is non-nil, and the result carries 0 and the empty string, not 42. -/
theorem ParseToken_no_partial_results_witness :
    (ParseToken (sample.lib [("aud", jwt.JVal.str "app"), ("iss", jwt.JVal.str "svc"),
        ("jti", jwt.JVal.str "42")]) sample.noHashIds (sample.helper "app" "svc" 3600)
        100 100 "h.c.s").2.2 ≠ none ∧
    (ParseToken (sample.lib [("aud", jwt.JVal.str "app"), ("iss", jwt.JVal.str "svc"),
        ("jti", jwt.JVal.str "42")]) sample.noHashIds (sample.helper "app" "svc" 3600)
        100 100 "h.c.s").1 = 0 ∧
    (ParseToken (sample.lib [("aud", jwt.JVal.str "app"), ("iss", jwt.JVal.str "svc"),
        ("jti", jwt.JVal.str "42")]) sample.noHashIds (sample.helper "app" "svc" 3600)
        100 100 "h.c.s").2.1 = "" :=
  ⟨by decide, ParseToken_no_partial_results _ _ _ _ _ _ (by decide)⟩

/-! ### C2: the second validity check is not a hard gate -/

/-- C2, the code at a failing input. The token `CreateToken(42, "session-payload")` makes at
clock reading 40 with lifetime 60 expires at 100. Parsed with the clock at 100 inside
`jwt.Parse` and at 101 at the second `token.Claims.Valid()`, that check reports a failure and
`ParseToken` returns `(0, "", nil)`: a nil error. -/
theorem ParseToken_second_Valid_returns_nil :
    (jwt.MapClaims.Valid
        (jwt.jsonView (fun n => n) ⟨"app", 100, "42", 40, "svc", 0, "session-payload"⟩) 101).isSome
      = true ∧
    ParseToken
        (sample.lib (jwt.jsonView (fun n => n) ⟨"app", 100, "42", 40, "svc", 0, "session-payload"⟩))
        sample.noHashIds (sample.helper "app" "svc" 60) 100 101 "h.c.s" = (0, "", none) := by
  constructor <;> decide

/-! ### C3: expiresAt and issuedAt come from two clock readings -/

/-- C3, the code at a failing input. With lifetime 3600 and a clock that reads 99 at the first
`time.Now()` and 100 at the second, `CreateToken` builds claims with `ExpiresAt = 3699` and
`IssuedAt = 100`, so `ExpiresAt` is not `IssuedAt + Timeout`. -/
theorem createClaims_two_clock_readings :
    createClaims sample.noHashIds (sample.helper "app" "svc" 3600) 99 100 42 "session-payload"
      = Except.ok ⟨"app", 3699, "42", 100, "svc", 0, "session-payload"⟩ ∧
    (3699 : Int) ≠ 100 + (sample.helper "app" "svc" 3600).opt.Timeout := by
  constructor
  · rfl
  · decide

/-- When both clock readings are the same instant and `now + Timeout` fits int64, the claims
satisfy `ExpiresAt = IssuedAt + Timeout`. -/
theorem createClaims_single_instant (h : HashIds) (jws : JwsHelper) (now userId : Int)
    (payload : String) (c : jwt.StandardClaims) (hfit : isInt64 (now + jws.opt.Timeout))
    (hc : createClaims h jws now now userId payload = Except.ok c) :
    c.ExpiresAt = c.IssuedAt + jws.opt.Timeout := by
  have hw : wrap64 (now + jws.opt.Timeout) = now + jws.opt.Timeout := by
    unfold isInt64 at hfit
    unfold wrap64
    omega
  unfold createClaims at hc
  dsimp only at hc
  split at hc
  · cases hc
  · cases hc
    simp [hw]

/-! ### C7: the payload gate -/

/-- C7. For a token that `jwt.Parse` accepts (signature and claims validity), whose claims pass
the second validity check, the audience and issuer checks, and whose subject id string decodes
to `userId`: if the `"sub"` claim is a string, `ParseToken` returns `(userId, that string, nil)`;
if it is absent or not a string, `ParseToken` returns a non-nil error. -/
theorem ParseToken_payload_gate (lib : jwt.JwtLib) (h : HashIds) (jws : JwsHelper)
    (now0 now1 : Int) (tokenStr : String) (token : jwt.Token) (userIdStr : String) (userId : Int)
    (hparse : jwt.Parse lib jws.publicKey now0 tokenStr = Except.ok token)
    (hvalid : token.Claims.Valid now1 = none)
    (haud : token.Claims.VerifyAudience jws.opt.Audience true = true)
    (hiss : token.Claims.VerifyIssuer jws.opt.Issuer true = true)
    (hjti : token.Claims.get "jti" = some (jwt.JVal.str userIdStr))
    (hdec : decodeUserId h jws userIdStr = (userId, none)) :
    (∀ payload, token.Claims.get "sub" = some (jwt.JVal.str payload) →
        ParseToken lib h jws now0 now1 tokenStr = (userId, payload, none)) ∧
    ((∀ payload, token.Claims.get "sub" ≠ some (jwt.JVal.str payload)) →
        (ParseToken lib h jws now0 now1 tokenStr).2.2 ≠ none) := by
  rw [ParseToken_after_gates lib h jws now0 now1 tokenStr token hparse hvalid haud hiss]
  simp only [hjti, hdec]
  constructor
  · intro payload hsub
    simp [hsub]
  · intro hno
    split
    · rename_i payload hsub
      exact absurd hsub (hno payload)
    · simp [errors.Errorf]

/-- C7 at the sample token: the premises hold and the payload comes back unchanged. -/
theorem ParseToken_payload_gate_witness :
    jwt.Parse (sample.lib sample.goodClaims) (sample.helper "app" "svc" 3600).publicKey 100 "h.c.s"
      = Except.ok ⟨sample.goodClaims, "s", true⟩ ∧
    ParseToken (sample.lib sample.goodClaims) sample.noHashIds (sample.helper "app" "svc" 3600)
      100 100 "h.c.s" = (42, "session-payload", none) :=
  ⟨rfl, (ParseToken_payload_gate (sample.lib sample.goodClaims) sample.noHashIds
    (sample.helper "app" "svc" 3600) 100 100 "h.c.s" ⟨sample.goodClaims, "s", true⟩ "42" 42
    rfl (by decide) (by decide) (by decide) (by decide) (by decide)).1 "session-payload"
    (by decide)⟩

/-! ### C6: the decimal subject id codec -/

/-- C6. With no salt configured: (a) the claims `CreateToken` builds carry
`strconv.FormatInt(userId, 10)` as their id; (b) the decoding step of `ParseToken` returns the
original `userId` on that string, for every int64 `userId`; (c) on every string that is not a
decimal int64 numeral the decoding step fails with the wrapped `strconv.ParseInt` error, and
`ParseToken` returns exactly that error for a token that reached the decoding step with such a
subject id. -/
theorem decimal_subject_codec (lib : jwt.JwtLib) (h : HashIds) (jws : JwsHelper)
    (hsalt : jws.opt.HashIdsSalt = "") :
    (∀ now0 now1 userId payload, ∃ c,
        createClaims h jws now0 now1 userId payload = Except.ok c ∧
          c.Id = strconv.FormatInt userId) ∧
    (∀ userId, isInt64 userId →
        decodeUserId h jws (strconv.FormatInt userId) = (userId, none)) ∧
    (∀ s, strconv.isDecimalInt64 s = false →
        ∃ k, decodeUserId h jws s =
          (0, some (GoError.wrapped (GoError.numError k s) "strconv.ParseInt"))) ∧
    (∀ now0 now1 tokenStr token s,
        jwt.Parse lib jws.publicKey now0 tokenStr = Except.ok token →
        token.Claims.Valid now1 = none →
        token.Claims.VerifyAudience jws.opt.Audience true = true →
        token.Claims.VerifyIssuer jws.opt.Issuer true = true →
        token.Claims.get "jti" = some (jwt.JVal.str s) →
        strconv.isDecimalInt64 s = false →
        ∃ k, ParseToken lib h jws now0 now1 tokenStr =
          (0, "", some (GoError.wrapped (GoError.numError k s) "strconv.ParseInt"))) := by
  have hbad : ∀ s, strconv.isDecimalInt64 s = false →
      ∃ k, decodeUserId h jws s =
        (0, some (GoError.wrapped (GoError.numError k s) "strconv.ParseInt")) := by
    intro s hs
    have hne : (strconv.ParseInt s).2 ≠ none := by
      intro hnone
      rw [(strconv.ParseInt_none_iff s).1 hnone] at hs
      cases hs
    unfold decodeUserId
    simp only [hsalt, ne_eq, not_true_eq_false, if_false]
    cases hp : strconv.ParseInt s with
    | mk v e =>
      cases e with
      | none => rw [hp] at hne; exact absurd rfl hne
      | some k => exact ⟨k, rfl⟩
  refine ⟨?_, ?_, hbad, ?_⟩
  · intro now0 now1 userId payload
    unfold createClaims
    simp [hsalt]
  · intro userId hi
    unfold decodeUserId
    simp [hsalt, strconv.ParseInt_FormatInt userId hi]
  · intro now0 now1 tokenStr token s hparse hvalid haud hiss hjti hs
    obtain ⟨k, hk⟩ := hbad s hs
    refine ⟨k, ?_⟩
    rw [ParseToken_after_gates lib h jws now0 now1 tokenStr token hparse hvalid haud hiss]
    simp only [hjti, hk]

/-- C6 at the sample helper (no salt): the id written for 42 is `"42"`, it decodes to 42, and
the subject id `"4x2"` is rejected. -/
theorem decimal_subject_codec_witness :
    (sample.helper "app" "svc" 3600).opt.HashIdsSalt = "" ∧
    decodeUserId sample.noHashIds (sample.helper "app" "svc" 3600) (strconv.FormatInt 42)
      = (42, none) ∧
    (∃ k, decodeUserId sample.noHashIds (sample.helper "app" "svc" 3600) "4x2" =
      (0, some (GoError.wrapped (GoError.numError k "4x2") "strconv.ParseInt"))) :=
  ⟨rfl,
    (decimal_subject_codec (sample.lib sample.goodClaims) sample.noHashIds
      (sample.helper "app" "svc" 3600) rfl).2.1 42 (by decide),
    (decimal_subject_codec (sample.lib sample.goodClaims) sample.noHashIds
      (sample.helper "app" "svc" 3600) rfl).2.2.1 "4x2" (by decide)⟩

/-! ### C8: construction -/

/-- C8. `NewJwsHelper` returns an error exactly when a non-empty private or public key path
yields data that the PEM parser rejects; with an error it returns no helper; without one it
returns a helper that stores the options unchanged, holds no key for an empty path and the
parsed key for a non-empty path. -/
theorem NewJwsHelper_construction (env : KeyEnv) (opt : JwsHelperOpt) :
    ((NewJwsHelper env opt).2 ≠ none ↔
      (opt.PrivateKeyPath ≠ "" ∧
        ∃ e, env.ParseRSAPrivateKeyFromPEM (env.ReadFile opt.PrivateKeyPath) = Except.error e) ∨
      (opt.PublicKeyPath ≠ "" ∧
        ∃ e, env.ParseRSAPublicKeyFromPEM (env.ReadFile opt.PublicKeyPath) = Except.error e)) ∧
    ((NewJwsHelper env opt).2 ≠ none → (NewJwsHelper env opt).1 = none) ∧
    ((NewJwsHelper env opt).2 = none →
      ∃ j, (NewJwsHelper env opt).1 = some j ∧ j.opt = opt ∧
        (opt.PrivateKeyPath = "" → j.privateKey = none) ∧
        (opt.PublicKeyPath = "" → j.publicKey = none) ∧
        (opt.PrivateKeyPath ≠ "" → ∃ k, j.privateKey = some k ∧
          env.ParseRSAPrivateKeyFromPEM (env.ReadFile opt.PrivateKeyPath) = Except.ok k) ∧
        (opt.PublicKeyPath ≠ "" → ∃ k, j.publicKey = some k ∧
          env.ParseRSAPublicKeyFromPEM (env.ReadFile opt.PublicKeyPath) = Except.ok k)) := by
  unfold NewJwsHelper
  by_cases hpriv : opt.PrivateKeyPath = "" <;> by_cases hpub : opt.PublicKeyPath = ""
  · simp [hpriv, hpub]
  · cases hk : env.ParseRSAPublicKeyFromPEM (env.ReadFile opt.PublicKeyPath) <;>
      simp [hpriv, hpub, hk, errors.Wrap]
  · cases hk : env.ParseRSAPrivateKeyFromPEM (env.ReadFile opt.PrivateKeyPath) <;>
      simp [hpriv, hpub, hk, errors.Wrap]
  · cases hk : env.ParseRSAPrivateKeyFromPEM (env.ReadFile opt.PrivateKeyPath) <;>
      cases hk2 : env.ParseRSAPublicKeyFromPEM (env.ReadFile opt.PublicKeyPath) <;>
      simp [hpriv, hpub, hk, hk2, errors.Wrap]

/-! ### The claims a created token carries -/

theorem jwt.get_append (a b : jwt.MapClaims) (key : String) :
    jwt.MapClaims.get (a ++ b) key = (jwt.MapClaims.get a key).or (jwt.MapClaims.get b key) := by
  unfold jwt.MapClaims.get
  induction a with
  | nil => simp
  | cons x xs ih =>
    obtain ⟨k, v⟩ := x
    by_cases hk : key = k
    · subst hk; simp [List.lookup]
    · have : (key == k) = false := by simpa using hk
      simp [List.lookup, this, ih]

theorem jwt.get_strMember (readStr : String → String) (k value key : String) :
    jwt.MapClaims.get (jwt.strMember readStr k value) key =
      if key = k ∧ value ≠ "" then some (jwt.JVal.str (readStr value)) else none := by
  unfold jwt.strMember jwt.MapClaims.get
  have hb : key ≠ k → (key == k) = false := fun hk => by simpa using hk
  by_cases hv : value = "" <;> by_cases hk : key = k <;> simp [hv, hk, List.lookup, hb]

theorem jwt.get_numMember (readNum : Int → Int) (k : String) (value : Int) (key : String) :
    jwt.MapClaims.get (jwt.numMember readNum k value) key =
      if key = k ∧ value ≠ 0 then some (jwt.JVal.num (readNum value)) else none := by
  unfold jwt.numMember jwt.MapClaims.get
  have hb : key ≠ k → (key == k) = false := fun hk => by simpa using hk
  by_cases hv : value = 0 <;> by_cases hk : key = k <;> simp [hv, hk, List.lookup, hb]

/-- The members of the decoded claims of a `StandardClaims` value. -/
theorem jwt.get_decodedClaims (readStr : String → String) (readNum : Int → Int)
    (c : jwt.StandardClaims) :
    jwt.MapClaims.get (jwt.decodedClaims readStr readNum c) "aud" =
        (if c.Audience ≠ "" then some (jwt.JVal.str (readStr c.Audience)) else none) ∧
    jwt.MapClaims.get (jwt.decodedClaims readStr readNum c) "exp" =
        (if c.ExpiresAt ≠ 0 then some (jwt.JVal.num (readNum c.ExpiresAt)) else none) ∧
    jwt.MapClaims.get (jwt.decodedClaims readStr readNum c) "jti" =
        (if c.Id ≠ "" then some (jwt.JVal.str (readStr c.Id)) else none) ∧
    jwt.MapClaims.get (jwt.decodedClaims readStr readNum c) "iat" =
        (if c.IssuedAt ≠ 0 then some (jwt.JVal.num (readNum c.IssuedAt)) else none) ∧
    jwt.MapClaims.get (jwt.decodedClaims readStr readNum c) "iss" =
        (if c.Issuer ≠ "" then some (jwt.JVal.str (readStr c.Issuer)) else none) ∧
    jwt.MapClaims.get (jwt.decodedClaims readStr readNum c) "nbf" =
        (if c.NotBefore ≠ 0 then some (jwt.JVal.num (readNum c.NotBefore)) else none) ∧
    jwt.MapClaims.get (jwt.decodedClaims readStr readNum c) "sub" =
        (if c.Subject ≠ "" then some (jwt.JVal.str (readStr c.Subject)) else none) := by
  unfold jwt.decodedClaims
  simp only [jwt.get_append, jwt.get_strMember, jwt.get_numMember]
  refine ⟨?_, ?_, ?_, ?_, ?_, ?_, ?_⟩ <;> simp

/-- The fields of the claims `CreateToken` builds. -/
theorem createClaims_fields (h : HashIds) (jws : JwsHelper) (now0 now1 userId : Int)
    (payload : String) (c : jwt.StandardClaims)
    (hc : createClaims h jws now0 now1 userId payload = Except.ok c) :
    c.Audience = jws.opt.Audience ∧ c.ExpiresAt = wrap64 (now0 + jws.opt.Timeout) ∧
      c.IssuedAt = now1 ∧ c.Issuer = jws.opt.Issuer ∧ c.NotBefore = 0 ∧ c.Subject = payload ∧
      (jws.opt.HashIdsSalt = "" → c.Id = strconv.FormatInt userId) ∧
      (jws.opt.HashIdsSalt ≠ "" →
        h.EncodeInt64 userId jws.opt.HashIdsSalt = Except.ok c.Id) := by
  unfold createClaims at hc
  dsimp only at hc
  split at hc
  · cases hc
  · rename_i userIdHash heq
    cases hc
    refine ⟨rfl, rfl, rfl, rfl, rfl, rfl, ?_, ?_⟩
    · intro hsalt
      simp only [hsalt, ne_eq, not_true_eq_false, if_false] at heq
      cases heq
      rfl
    · intro hsalt
      simpa [hsalt] using heq

/-! ### When `ParseToken` returns a nil error -/

/-- A nil error of `ParseToken` has one of two origins: the second validity check failed (and
the result is `(0, "", nil)`), or every gate passed. -/
theorem ParseToken_nil_cases (lib : jwt.JwtLib) (h : HashIds) (jws : JwsHelper)
    (now0 now1 : Int) (tokenStr : String)
    (hnil : (ParseToken lib h jws now0 now1 tokenStr).2.2 = none) :
    ∃ token, jwt.Parse lib jws.publicKey now0 tokenStr = Except.ok token ∧
      ((token.Claims.Valid now1 ≠ none ∧ ParseToken lib h jws now0 now1 tokenStr = (0, "", none)) ∨
        (token.Claims.Valid now1 = none ∧
          token.Claims.VerifyAudience jws.opt.Audience true = true ∧
          token.Claims.VerifyIssuer jws.opt.Issuer true = true ∧
          ∃ userIdStr userId payload,
            token.Claims.get "jti" = some (jwt.JVal.str userIdStr) ∧
            decodeUserId h jws userIdStr = (userId, none) ∧
            token.Claims.get "sub" = some (jwt.JVal.str payload) ∧
            ParseToken lib h jws now0 now1 tokenStr = (userId, payload, none))) := by
  cases hparse : jwt.Parse lib jws.publicKey now0 tokenStr with
  | error e =>
    rw [ParseToken_of_Parse_error lib h jws now0 now1 tokenStr e hparse] at hnil
    cases hnil
  | ok token =>
    refine ⟨token, rfl, ?_⟩
    cases hvalid : token.Claims.Valid now1 with
    | some v =>
      exact Or.inl ⟨by simp,
        ParseToken_of_second_Valid_error lib h jws now0 now1 tokenStr token v hparse hvalid⟩
    | none =>
      right
      refine ⟨rfl, ?_⟩
      by_cases haud : token.Claims.VerifyAudience jws.opt.Audience true = true
      · by_cases hiss : token.Claims.VerifyIssuer jws.opt.Issuer true = true
        · refine ⟨haud, hiss, ?_⟩
          rw [ParseToken_after_gates lib h jws now0 now1 tokenStr token hparse hvalid haud hiss]
            at hnil ⊢
          split at hnil
          · rename_i userIdStr hjti
            split at hnil
            · cases hnil
            · rename_i userId hdec
              split at hnil
              · rename_i payload hsub
                refine ⟨userIdStr, userId, payload, hjti, hdec, hsub, ?_⟩
                simp only [hjti, hdec, hsub]
              · simp [errors.Errorf] at hnil
          · simp [errors.Errorf] at hnil
        · simp [ParseToken, hparse, hvalid, haud, hiss, errors.Errorf] at hnil
      · simp [ParseToken, hparse, hvalid, haud, errors.Errorf] at hnil

/-! ### C4: audience and issuer -/

/-- The issued-at and not-before comparisons of the validity check stay satisfied when the clock
moves forward. -/
theorem jwt.Verify_iat_nbf_mono (m : jwt.MapClaims) (now0 now1 : Int) (hclock : now0 ≤ now1) :
    (m.VerifyIssuedAt now0 false = true → m.VerifyIssuedAt now1 false = true) ∧
    (m.VerifyNotBefore now0 false = true → m.VerifyNotBefore now1 false = true) := by
  unfold jwt.MapClaims.VerifyIssuedAt jwt.MapClaims.VerifyNotBefore jwt.verifyIat jwt.verifyNbf
  constructor
  · split
    · split_ifs
      · exact id
      · simp only [decide_eq_true_eq]
        intro h
        omega
    · exact id
  · split
    · split_ifs
      · exact id
      · simp only [decide_eq_true_eq]
        intro h
        omega
    · exact id

/-- With a clock that does not run backwards between the two readings of `ParseToken` (`now0`
inside `jwt.Parse`, `now1` at its own validity check) and claims that are unexpired at `now1`:
a nil error of `ParseToken` implies that the `"aud"` claim equals the configured audience and
the `"iss"` claim equals the configured issuer. -/
theorem ParseToken_nil_audience_issuer (lib : jwt.JwtLib) (h : HashIds) (jws : JwsHelper)
    (now0 now1 : Int) (hclock : now0 ≤ now1) (tokenStr : String) (u : jwt.Unverified)
    (hu : lib.parseUnverified tokenStr = Except.ok u)
    (hexp : u.claims.VerifyExpiresAt now1 false = true)
    (hnil : (ParseToken lib h jws now0 now1 tokenStr).2.2 = none) :
    u.claims.str "aud" = jws.opt.Audience ∧ u.claims.str "iss" = jws.opt.Issuer := by
  obtain ⟨token, hparse, hcases⟩ := ParseToken_nil_cases lib h jws now0 now1 tokenStr hnil
  obtain ⟨u2, hu2, hv0, _, htok⟩ :=
    (jwt.Parse_eq_ok lib jws.publicKey now0 tokenStr token).1 hparse
  rw [hu] at hu2
  cases hu2
  subst htok
  obtain ⟨_, hiat, hnbf⟩ := (jwt.Valid_eq_none u.claims now0).1 hv0
  obtain ⟨miat, mnbf⟩ := jwt.Verify_iat_nbf_mono u.claims now0 now1 hclock
  have hvalid : u.claims.Valid now1 = none :=
    (jwt.Valid_eq_none u.claims now1).2 ⟨hexp, miat hiat, mnbf hnbf⟩
  rcases hcases with ⟨hbad, _⟩ | ⟨_, haud, hiss, _⟩
  · exact absurd hvalid hbad
  · exact ⟨((jwt.verifyAud_required _ _).1 haud).2, ((jwt.verifyIss_required _ _).1 hiss).2⟩

/-- C4, the code at a failing input. `CreateToken(42, "session-payload")` under audience `"A"`,
issuer `"svc"` and lifetime 3600 at clock reading 100 makes a token that expires at 3700. A
verifier with the same keys and issuer but audience `"B"` parses it with the clock at 3700
inside `jwt.Parse` (the token is validly signed and unexpired) and at 3701 at the second
`token.Claims.Valid()`: `ParseToken` returns `(0, "", nil)`, a nil error, although the `"aud"`
claim `"A"` is not the configured audience `"B"`. -/
theorem ParseToken_audience_mismatch_returns_nil :
    CreateToken
        (sample.lib (jwt.jsonView (fun n => n) ⟨"A", 3700, "42", 100, "svc", 0, "session-payload"⟩))
        sample.noHashIds (sample.helper "A" "svc" 3600) 100 100 42 "session-payload"
      = ("h.c.s", none) ∧
    jwt.MapClaims.str
        (jwt.jsonView (fun n => n) ⟨"A", 3700, "42", 100, "svc", 0, "session-payload"⟩) "aud"
      = "A" ∧
    (sample.helper "B" "svc" 3600).opt.Audience = "B" ∧
    jwt.MapClaims.VerifyExpiresAt
        (jwt.jsonView (fun n => n) ⟨"A", 3700, "42", 100, "svc", 0, "session-payload"⟩) 3700 false
      = true ∧
    ParseToken
        (sample.lib (jwt.jsonView (fun n => n) ⟨"A", 3700, "42", 100, "svc", 0, "session-payload"⟩))
        sample.noHashIds (sample.helper "B" "svc" 3600) 3700 3701 "h.c.s" = (0, "", none) := by
  refine ⟨?_, ?_, ?_, ?_, ?_⟩ <;> decide

/-! ### C5: the expiry boundary -/

/-- C5 as stated fails at four tokens, all validly signed, with matching audience `"app"` and
issuer `"svc"` and the decodable subject id `"42"`:
* expiry 0 parsed at time 1 (`expiresAt == now - 1`) is accepted, a zero expiry counting as
  none;
* expiry 100 parsed at time 100 (`expiresAt == now`) is rejected when the token was issued at
  200, when it is not valid before 200, and when it has no payload claim. -/
theorem ParseToken_expiry_boundary_counterexample :
    ParseToken (sample.lib (sample.claimsWith [("exp", jwt.JVal.num 0)])) sample.noHashIds
        (sample.helper "app" "svc" 3600) 1 1 "h.c.s" = (42, "session-payload", none) ∧
    (ParseToken
        (sample.lib (sample.claimsWith [("exp", jwt.JVal.num 100), ("iat", jwt.JVal.num 200)]))
        sample.noHashIds (sample.helper "app" "svc" 3600) 100 100 "h.c.s").2.2 ≠ none ∧
    (ParseToken
        (sample.lib (sample.claimsWith [("exp", jwt.JVal.num 100), ("nbf", jwt.JVal.num 200)]))
        sample.noHashIds (sample.helper "app" "svc" 3600) 100 100 "h.c.s").2.2 ≠ none ∧
    (ParseToken
        (sample.lib [("aud", jwt.JVal.str "app"), ("iss", jwt.JVal.str "svc"),
          ("jti", jwt.JVal.str "42"), ("exp", jwt.JVal.num 100)])
        sample.noHashIds (sample.helper "app" "svc" 3600) 100 100 "h.c.s").2.2 ≠ none := by
  refine ⟨?_, ?_, ?_, ?_⟩ <;> decide

/-- C5, amended. For a token string that decodes to claims with the numeric expiry `exp`,
parsed with the clock at `now` throughout: (1) when `exp = now - 1` and `exp` is not zero,
`ParseToken` returns a non-nil error; (2) when `exp = now`, the signature verifies, the
issued-at and not-before checks pass at `now`, audience and issuer pass their checks, the
subject id decodes to `userId` and the payload claim is the string `payload`, `ParseToken`
returns `(userId, payload, nil)`. -/
theorem ParseToken_expiry_boundary (lib : jwt.JwtLib) (h : HashIds) (jws : JwsHelper)
    (now : Int) (tokenStr : String) (u : jwt.Unverified) (exp : Int)
    (hu : lib.parseUnverified tokenStr = Except.ok u)
    (hexp : u.claims.get "exp" = some (jwt.JVal.num exp)) :
    (exp = now - 1 → exp ≠ 0 → (ParseToken lib h jws now now tokenStr).2.2 ≠ none) ∧
    (exp = now →
      lib.verify u.alg u.signingInput u.signature jws.publicKey = none →
      u.claims.VerifyIssuedAt now false = true →
      u.claims.VerifyNotBefore now false = true →
      u.claims.VerifyAudience jws.opt.Audience true = true →
      u.claims.VerifyIssuer jws.opt.Issuer true = true →
      ∀ userIdStr userId payload,
        u.claims.get "jti" = some (jwt.JVal.str userIdStr) →
        decodeUserId h jws userIdStr = (userId, none) →
        u.claims.get "sub" = some (jwt.JVal.str payload) →
        ParseToken lib h jws now now tokenStr = (userId, payload, none)) := by
  have hverify : u.claims.VerifyExpiresAt now false = jwt.verifyExp exp now false := by
    unfold jwt.MapClaims.VerifyExpiresAt
    rw [hexp]
  constructor
  · intro hlate hnz
    have hfalse : u.claims.VerifyExpiresAt now false = false := by
      rw [hverify]
      unfold jwt.verifyExp
      rw [if_neg hnz]
      simp only [decide_eq_false_iff_not]
      omega
    cases hparse : jwt.Parse lib jws.publicKey now tokenStr with
    | error e =>
      rw [ParseToken_of_Parse_error lib h jws now now tokenStr e hparse]
      simp
    | ok token =>
      obtain ⟨u2, hu2, hvalid, _, _⟩ :=
        (jwt.Parse_eq_ok lib jws.publicKey now tokenStr token).1 hparse
      rw [hu] at hu2
      cases hu2
      have := ((jwt.Valid_eq_none u.claims now).1 hvalid).1
      rw [hfalse] at this
      cases this
  · intro hnow hsig hiat hnbf haud hiss userIdStr userId payload hjti hdec hsub
    have htrue : u.claims.VerifyExpiresAt now false = true := by
      rw [hverify]
      unfold jwt.verifyExp
      split_ifs
      · rfl
      · simp [hnow]
    have hvalid : u.claims.Valid now = none :=
      (jwt.Valid_eq_none u.claims now).2 ⟨htrue, hiat, hnbf⟩
    have hparse : jwt.Parse lib jws.publicKey now tokenStr =
        Except.ok ⟨u.claims, u.signature, true⟩ :=
      (jwt.Parse_eq_ok lib jws.publicKey now tokenStr _).2 ⟨u, hu, hvalid, hsig, rfl⟩
    rw [ParseToken_after_gates lib h jws now now tokenStr _ hparse hvalid haud hiss]
    simp only [hjti, hdec, hsub]

/-- C5 amended, at two sample tokens parsed at time 100: expiry 99 is rejected, expiry 100 is
accepted. -/
theorem ParseToken_expiry_boundary_witness :
    (ParseToken (sample.lib (sample.claimsWith [("exp", jwt.JVal.num 99)])) sample.noHashIds
        (sample.helper "app" "svc" 3600) 100 100 "h.c.s").2.2 ≠ none ∧
    ParseToken (sample.lib (sample.claimsWith [("exp", jwt.JVal.num 100)])) sample.noHashIds
        (sample.helper "app" "svc" 3600) 100 100 "h.c.s" = (42, "session-payload", none) :=
  ⟨(ParseToken_expiry_boundary (sample.lib (sample.claimsWith [("exp", jwt.JVal.num 99)]))
      sample.noHashIds (sample.helper "app" "svc" 3600) 100 "h.c.s"
      ⟨"RS256", sample.claimsWith [("exp", jwt.JVal.num 99)], "h.c", "s"⟩ 99 rfl rfl).1
      (by decide) (by decide),
    (ParseToken_expiry_boundary (sample.lib (sample.claimsWith [("exp", jwt.JVal.num 100)]))
      sample.noHashIds (sample.helper "app" "svc" 3600) 100 "h.c.s"
      ⟨"RS256", sample.claimsWith [("exp", jwt.JVal.num 100)], "h.c", "s"⟩ 100 rfl rfl).2
      rfl (by decide) (by decide) (by decide) (by decide) (by decide)
      "42" 42 "session-payload" (by decide) (by decide) (by decide)⟩

/-! ### C1: the round trip -/

/-- C1 as stated fails at three round trips under one configuration with matching keys, all
parsed at the instant of creation: the empty payload, the empty audience and the empty issuer.
In each, `CreateToken` returns the token with a nil error and `ParseToken` of that token
returns a non-nil error (the JSON form of the claims leaves out an empty string). -/
theorem roundtrip_counterexample :
    (CreateToken (sample.lib (jwt.jsonView (fun n => n) ⟨"app", 3700, "42", 100, "svc", 0, ""⟩))
        sample.noHashIds (sample.helper "app" "svc" 3600) 100 100 42 "" = ("h.c.s", none) ∧
      ParseToken (sample.lib (jwt.jsonView (fun n => n) ⟨"app", 3700, "42", 100, "svc", 0, ""⟩))
        sample.noHashIds (sample.helper "app" "svc" 3600) 100 100 "h.c.s" =
        (0, "", some (GoError.msg "claim is not StandardClaims sub is not string: %+v"))) ∧
    (CreateToken (sample.lib (jwt.jsonView (fun n => n) ⟨"", 3700, "42", 100, "svc", 0, "p"⟩))
        sample.noHashIds (sample.helper "" "svc" 3600) 100 100 42 "p" = ("h.c.s", none) ∧
      ParseToken (sample.lib (jwt.jsonView (fun n => n) ⟨"", 3700, "42", 100, "svc", 0, "p"⟩))
        sample.noHashIds (sample.helper "" "svc" 3600) 100 100 "h.c.s" =
        (0, "", some (GoError.msg "claim.VerifyAudience: %+v"))) ∧
    (CreateToken (sample.lib (jwt.jsonView (fun n => n) ⟨"app", 3700, "42", 100, "", 0, "p"⟩))
        sample.noHashIds (sample.helper "app" "" 3600) 100 100 42 "p" = ("h.c.s", none) ∧
      ParseToken (sample.lib (jwt.jsonView (fun n => n) ⟨"app", 3700, "42", 100, "", 0, "p"⟩))
        sample.noHashIds (sample.helper "app" "" 3600) 100 100 "h.c.s" =
        (0, "", some (GoError.msg "claim.VerifyIssuer: %+v"))) := by
  refine ⟨⟨?_, ?_⟩, ⟨?_, ?_⟩, ⟨?_, ?_⟩⟩ <;> decide

/-- The validity check passes on the decoded claims of a `StandardClaims` value without a
not-before time, at every clock reading between its issue and its expiry, when its two
timestamps are read back unchanged. -/
theorem jwt.Valid_decodedClaims (readStr : String → String) (readNum : Int → Int)
    (c : jwt.StandardClaims) (now : Int) (hnbf : c.NotBefore = 0)
    (hnum : readNum c.ExpiresAt = c.ExpiresAt ∧ readNum c.IssuedAt = c.IssuedAt)
    (ht : c.IssuedAt ≤ now ∧ now ≤ c.ExpiresAt) :
    jwt.MapClaims.Valid (jwt.decodedClaims readStr readNum c) now = none := by
  obtain ⟨_, hexp, _, hiat, _, hnb, _⟩ := jwt.get_decodedClaims readStr readNum c
  rw [jwt.Valid_eq_none]
  refine ⟨?_, ?_, ?_⟩
  · unfold jwt.MapClaims.VerifyExpiresAt
    rw [hexp]
    by_cases hz : c.ExpiresAt = 0
    · simp [hz]
    · simp only [ne_eq, hz, not_false_eq_true, if_true, hnum.1, jwt.verifyExp, if_false]
      simpa using ht.2
  · unfold jwt.MapClaims.VerifyIssuedAt
    rw [hiat]
    by_cases hz : c.IssuedAt = 0
    · simp [hz]
    · simp only [ne_eq, hz, not_false_eq_true, if_true, hnum.2, jwt.verifyIat, if_false]
      simpa using ht.1
  · unfold jwt.MapClaims.VerifyNotBefore
    rw [hnb]
    simp [hnbf]

/-- C1, amended. Let `CreateToken(userId, payload)` build its claims, sign them with the
private key into `sig`, and let the public key verify that signature (matching key pair) and
the library decode the token back to the JSON form of the claims. If the payload, the
configured audience and the configured issuer are not empty, these three strings and the
subject id string are read back unchanged from the JSON text (as valid UTF-8 is), `userId` is an
int64 (with a salt: the codec wrote a non-empty string that it decodes back to `userId`), the
two timestamps are read back unchanged, and both clock readings of the verifier lie between
`IssuedAt` and `ExpiresAt`, then `CreateToken` returns the token with a nil error and
`ParseToken` of it returns `(userId, payload, nil)`. -/
theorem roundtrip (lib : jwt.JwtLib) (h : HashIds) (jws : JwsHelper) (c0 c1 p0 p1 userId : Int)
    (payload : String) (claims : jwt.StandardClaims) (sig : String)
    (hclaims : createClaims h jws c0 c1 userId payload = Except.ok claims)
    (hsign : lib.sign (lib.signingString claims) jws.privateKey = Except.ok sig)
    (hkeys : lib.verify "RS256" (lib.signingString claims) sig jws.publicKey = none)
    (hwire : lib.parseUnverified (lib.signingString claims ++ "." ++ sig) =
      Except.ok ⟨"RS256", jwt.decodedClaims lib.readStr lib.readNum claims,
        lib.signingString claims, sig⟩)
    (hcodec : jws.opt.HashIdsSalt ≠ "" →
      claims.Id ≠ "" ∧ h.DecodeInt64 claims.Id jws.opt.HashIdsSalt = Except.ok userId)
    (huid : isInt64 userId)
    (hpayload : payload ≠ "") (haud : jws.opt.Audience ≠ "") (hiss : jws.opt.Issuer ≠ "")
    (hstr : lib.readStr payload = payload ∧ lib.readStr jws.opt.Audience = jws.opt.Audience ∧
      lib.readStr jws.opt.Issuer = jws.opt.Issuer ∧ lib.readStr claims.Id = claims.Id)
    (hnum : lib.readNum claims.ExpiresAt = claims.ExpiresAt ∧
      lib.readNum claims.IssuedAt = claims.IssuedAt)
    (ht0 : claims.IssuedAt ≤ p0 ∧ p0 ≤ claims.ExpiresAt)
    (ht1 : claims.IssuedAt ≤ p1 ∧ p1 ≤ claims.ExpiresAt) :
    CreateToken lib h jws c0 c1 userId payload = (lib.signingString claims ++ "." ++ sig, none) ∧
    ParseToken lib h jws p0 p1 (lib.signingString claims ++ "." ++ sig) =
      (userId, payload, none) := by
  obtain ⟨hA, _, _, hI, hN, hS, hdecimal, _⟩ :=
    createClaims_fields h jws c0 c1 userId payload claims hclaims
  obtain ⟨gaud, _, gjti, _, giss, _, gsub⟩ :=
    jwt.get_decodedClaims lib.readStr lib.readNum claims
  obtain ⟨sP, sA, sI, sId⟩ := hstr
  constructor
  · simp [CreateToken, hclaims, jwt.SignedString, hsign]
  · have hv0 := jwt.Valid_decodedClaims lib.readStr lib.readNum claims p0 hN hnum ht0
    have hv1 := jwt.Valid_decodedClaims lib.readStr lib.readNum claims p1 hN hnum ht1
    have hparse : jwt.Parse lib jws.publicKey p0 (lib.signingString claims ++ "." ++ sig) =
        Except.ok ⟨jwt.decodedClaims lib.readStr lib.readNum claims, sig, true⟩ :=
      (jwt.Parse_eq_ok lib jws.publicKey p0 _ _).2 ⟨_, hwire, hv0, hkeys, rfl⟩
    have hAne : claims.Audience ≠ "" := by rw [hA]; exact haud
    have hIne : claims.Issuer ≠ "" := by rw [hI]; exact hiss
    have hSne : claims.Subject ≠ "" := by rw [hS]; exact hpayload
    have hva : jwt.MapClaims.VerifyAudience (jwt.decodedClaims lib.readStr lib.readNum claims)
        jws.opt.Audience true = true := by
      unfold jwt.MapClaims.VerifyAudience jwt.MapClaims.str
      rw [gaud, if_pos hAne, hA, sA]
      exact (jwt.verifyAud_required _ _).2 ⟨haud, rfl⟩
    have hvi : jwt.MapClaims.VerifyIssuer (jwt.decodedClaims lib.readStr lib.readNum claims)
        jws.opt.Issuer true = true := by
      unfold jwt.MapClaims.VerifyIssuer jwt.MapClaims.str
      rw [giss, if_pos hIne, hI, sI]
      exact (jwt.verifyIss_required _ _).2 ⟨hiss, rfl⟩
    have hid : claims.Id ≠ "" ∧ decodeUserId h jws claims.Id = (userId, none) := by
      by_cases hsalt : jws.opt.HashIdsSalt = ""
      · rw [hdecimal hsalt]
        refine ⟨strconv.FormatInt_ne_empty userId, ?_⟩
        unfold decodeUserId
        simp [hsalt, strconv.ParseInt_FormatInt userId huid]
      · obtain ⟨hne, hdec⟩ := hcodec hsalt
        refine ⟨hne, ?_⟩
        unfold decodeUserId
        simp [hsalt, hdec]
    rw [ParseToken_after_gates lib h jws p0 p1 _ _ hparse hv1 hva hvi]
    simp only [gjti, gsub, if_pos hid.1, if_pos hSne, sId, hid.2]
    rw [hS, sP]

/-- C1 amended, at the example of the specification: `CreateToken(42, "session-payload")` with
audience `"app"`, issuer `"svc"` and lifetime 3600 at time 100, parsed at time 200. -/
theorem roundtrip_witness :
    CreateToken (sample.lib sample.goodClaims) sample.noHashIds (sample.helper "app" "svc" 3600)
        100 100 42 "session-payload" = ("h.c.s", none) ∧
    ParseToken (sample.lib sample.goodClaims) sample.noHashIds (sample.helper "app" "svc" 3600)
        200 200 "h.c.s" = (42, "session-payload", none) :=
  roundtrip (sample.lib sample.goodClaims) sample.noHashIds (sample.helper "app" "svc" 3600)
    100 100 200 200 42 "session-payload" ⟨"app", 3700, "42", 100, "svc", 0, "session-payload"⟩ "s"
    rfl rfl rfl rfl (fun hsalt => absurd rfl hsalt) (by decide) (by decide) (by decide)
    (by decide) ⟨rfl, rfl, rfl, rfl⟩ ⟨rfl, rfl⟩ (by decide) (by decide)

/-! ### C9: the registry -/

namespace app

/-- What `GetDb` does to the state: the service fields are untouched, the pool is set, and the
calls made are `NewDbPool` (when the pool was unset) and `Db`. -/
theorem GetDb_state (sv : Services) (dbname : String) (s : State) :
    (GetDb sv dbname s).2.App.areaSvc = s.App.areaSvc ∧
    (GetDb sv dbname s).2.App.smsSvc = s.App.smsSvc ∧
    (GetDb sv dbname s).2.App.UserSvr = s.App.UserSvr ∧
    (GetDb sv dbname s).2.App.resourceSvc = s.App.resourceSvc ∧
    (GetDb sv dbname s).2.App.goodsSvc = s.App.goodsSvc ∧
    (GetDb sv dbname s).2.App.orderSvc = s.App.orderSvc ∧
    ((GetDb sv dbname s).2.calls = s.calls ++ [Ext.Db dbname] ∨
      (GetDb sv dbname s).2.calls = s.calls ++ [Ext.NewDbPool, Ext.Db dbname]) := by
  unfold GetDb
  cases hp : s.App.dbPool <;> simp [State.call]

/-- A getter whose field is set returns the cached instance and leaves the state as it is. -/
theorem Getter.run_cached (sv : Services) (g : Getter) (s : State) (v : Ref)
    (hf : g.field s.App = some v) : g.run sv s = (Except.ok v, s) := by
  cases g <;>
    simp only [Getter.field] at hf <;>
    simp [Getter.run, GetAreaService, GetSmsService, GetUserService, GetResourceService,
      GetGoodsService, GetOrderService, hf]

/-- The effect of one getter call on the state, by the result it returns. -/
theorem Getter.run_effect (sv : Services) (g : Getter) (s : State) :
    (∀ g2 : Getter, g2 ≠ g → g2.field (g.run sv s).2.App = g2.field s.App) ∧
    (∀ v, (g.run sv s).1 = Except.ok v → g.field (g.run sv s).2.App = some v) ∧
    (∀ e, (g.run sv s).1 = Except.error e →
      g.field s.App = none ∧ g.field (g.run sv s).2.App = none) ∧
    (∃ new, (g.run sv s).2.calls = s.calls ++ new ∧ new.Nodup) := by
  have hdb := GetDb_state sv "user" s
  cases g
  case area =>
    simp only [Getter.run, Getter.field, GetAreaService]
    cases hf : s.App.areaSvc with
    | some svc =>
      refine ⟨fun g2 _ => rfl, ?_, ?_, ⟨[], by simp⟩⟩ <;> simp [hf]
    | none =>
      cases hk : sv.NewAreaService s.calls.length with
      | error err =>
        refine ⟨fun g2 _ => rfl, ?_, ?_, ⟨[Ext.NewAreaService], by simp [State.call]⟩⟩ <;>
          simp [hf, State.call]
      | ok svc =>
        refine ⟨?_, ?_, ?_, ⟨[Ext.NewAreaService], by simp [State.call]⟩⟩
        · intro g2 hg2
          cases g2 <;> simp [Getter.field, State.call] at hg2 ⊢
        · simp [State.call]
        · simp
  case sms =>
    simp only [Getter.run, Getter.field, GetSmsService]
    cases hf : s.App.smsSvc with
    | some svc =>
      refine ⟨fun g2 _ => rfl, ?_, ?_, ⟨[], by simp⟩⟩ <;> simp [hf]
    | none =>
      refine ⟨?_, ?_, ?_, ⟨[Ext.NewSmsService], by simp [State.call]⟩⟩
      · intro g2 hg2
        cases g2 <;> simp [Getter.field, State.call] at hg2 ⊢
      · simp [State.call]
      · simp
  case user =>
    simp only [Getter.run, Getter.field, GetUserService]
    cases hf : s.App.UserSvr with
    | some svc =>
      refine ⟨fun g2 _ => rfl, ?_, ?_, ⟨[], by simp⟩⟩ <;> simp [hf]
    | none =>
      obtain ⟨h1, h2, h3, h4, h5, h6, hcalls⟩ := hdb
      cases hd : GetDb sv "user" s with
      | mk r s1 =>
        rw [hd] at h1 h2 h3 h4 h5 h6 hcalls
        simp only at h1 h2 h3 h4 h5 h6 hcalls
        cases r with
        | error err =>
          refine ⟨?_, ?_, ?_, ?_⟩
          · intro g2 hg2
            cases g2 <;> simp [Getter.field, h1, h2, h3, h4, h5, h6] at hg2 ⊢
          · simp
          · simp [h3, hf]
          · rcases hcalls with hc | hc
            · exact ⟨_, hc, by simp⟩
            · exact ⟨_, hc, by simp⟩
        | ok userDb =>
          simp only [GetJwsHelper]
          cases hj : sv.NewJwsHelper s1.calls.length with
          | error err =>
            refine ⟨?_, ?_, ?_, ?_⟩
            · intro g2 hg2
              cases g2 <;> simp [Getter.field, State.call, h1, h2, h3, h4, h5, h6] at hg2 ⊢
            · simp
            · simp [h3, hf, State.call]
            · rcases hcalls with hc | hc
              · exact ⟨[Ext.Db "user", Ext.NewJwsHelper], by simp [State.call, hc], by simp⟩
              · exact ⟨[Ext.NewDbPool, Ext.Db "user", Ext.NewJwsHelper],
                  by simp [State.call, hc], by simp⟩
          | ok jws =>
            refine ⟨?_, ?_, ?_, ?_⟩
            · intro g2 hg2
              cases g2 <;> simp [Getter.field, State.call, h1, h2, h3, h4, h5, h6] at hg2 ⊢
            · simp [State.call]
            · simp
            · rcases hcalls with hc | hc
              · exact ⟨[Ext.Db "user", Ext.NewJwsHelper, Ext.NewUserService],
                  by simp [State.call, hc], by simp⟩
              · exact ⟨[Ext.NewDbPool, Ext.Db "user", Ext.NewJwsHelper, Ext.NewUserService],
                  by simp [State.call, hc], by simp⟩
  case resource =>
    simp only [Getter.run, Getter.field, GetResourceService]
    cases hf : s.App.resourceSvc with
    | some svc =>
      refine ⟨fun g2 _ => rfl, ?_, ?_, ⟨[], by simp⟩⟩ <;> simp [hf]
    | none =>
      obtain ⟨h1, h2, h3, h4, h5, h6, hcalls⟩ := hdb
      cases hd : GetDb sv "user" s with
      | mk r s1 =>
        rw [hd] at h1 h2 h3 h4 h5 h6 hcalls
        simp only at h1 h2 h3 h4 h5 h6 hcalls
        cases r with
        | error err =>
          refine ⟨?_, ?_, ?_, ?_⟩
          · intro g2 hg2
            cases g2 <;> simp [Getter.field, h1, h2, h3, h4, h5, h6] at hg2 ⊢
          · simp
          · simp [h4, hf]
          · rcases hcalls with hc | hc
            · exact ⟨_, hc, by simp⟩
            · exact ⟨_, hc, by simp⟩
        | ok userDb =>
          refine ⟨?_, ?_, ?_, ?_⟩
          · intro g2 hg2
            cases g2 <;> simp [Getter.field, State.call, h1, h2, h3, h4, h5, h6] at hg2 ⊢
          · simp [State.call]
          · simp
          · rcases hcalls with hc | hc
            · exact ⟨[Ext.Db "user", Ext.NewResourceService], by simp [State.call, hc], by simp⟩
            · exact ⟨[Ext.NewDbPool, Ext.Db "user", Ext.NewResourceService],
                by simp [State.call, hc], by simp⟩
  case goods =>
    simp only [Getter.run, Getter.field, GetGoodsService]
    cases hf : s.App.goodsSvc with
    | some svc =>
      refine ⟨fun g2 _ => rfl, ?_, ?_, ⟨[], by simp⟩⟩ <;> simp [hf]
    | none =>
      obtain ⟨h1, h2, h3, h4, h5, h6, hcalls⟩ := hdb
      cases hd : GetDb sv "user" s with
      | mk r s1 =>
        rw [hd] at h1 h2 h3 h4 h5 h6 hcalls
        simp only at h1 h2 h3 h4 h5 h6 hcalls
        cases r with
        | error err =>
          refine ⟨?_, ?_, ?_, ?_⟩
          · intro g2 hg2
            cases g2 <;> simp [Getter.field, h1, h2, h3, h4, h5, h6] at hg2 ⊢
          · simp
          · simp [h5, hf]
          · rcases hcalls with hc | hc
            · exact ⟨_, hc, by simp⟩
            · exact ⟨_, hc, by simp⟩
        | ok db =>
          refine ⟨?_, ?_, ?_, ?_⟩
          · intro g2 hg2
            cases g2 <;> simp [Getter.field, State.call, h1, h2, h3, h4, h5, h6] at hg2 ⊢
          · simp [State.call]
          · simp
          · rcases hcalls with hc | hc
            · exact ⟨[Ext.Db "user", Ext.NewGoodsService], by simp [State.call, hc], by simp⟩
            · exact ⟨[Ext.NewDbPool, Ext.Db "user", Ext.NewGoodsService],
                by simp [State.call, hc], by simp⟩
  case order =>
    simp only [Getter.run, Getter.field, GetOrderService]
    cases hf : s.App.orderSvc with
    | some svc =>
      refine ⟨fun g2 _ => rfl, ?_, ?_, ⟨[], by simp⟩⟩ <;> simp [hf]
    | none =>
      obtain ⟨h1, h2, h3, h4, h5, h6, hcalls⟩ := hdb
      cases hd : GetDb sv "user" s with
      | mk r s1 =>
        rw [hd] at h1 h2 h3 h4 h5 h6 hcalls
        simp only at h1 h2 h3 h4 h5 h6 hcalls
        cases r with
        | error err =>
          refine ⟨?_, ?_, ?_, ?_⟩
          · intro g2 hg2
            cases g2 <;> simp [Getter.field, h1, h2, h3, h4, h5, h6] at hg2 ⊢
          · simp
          · simp [h6, hf]
          · rcases hcalls with hc | hc
            · exact ⟨_, hc, by simp⟩
            · exact ⟨_, hc, by simp⟩
        | ok db =>
          refine ⟨?_, ?_, ?_, ?_⟩
          · intro g2 hg2
            cases g2 <;> simp [Getter.field, State.call, h1, h2, h3, h4, h5, h6] at hg2 ⊢
          · simp [State.call]
          · simp
          · rcases hcalls with hc | hc
            · exact ⟨[Ext.Db "user", Ext.NewOrderService], by simp [State.call, hc], by simp⟩
            · exact ⟨[Ext.NewDbPool, Ext.Db "user", Ext.NewOrderService],
                by simp [State.call, hc], by simp⟩

/-- No registry call unsets a service field that is set. -/
theorem Op.step_preserves (sv : Services) (op : Op) (s : State) (g : Getter) (v : Ref)
    (hf : g.field s.App = some v) : g.field (op.step sv s).App = some v := by
  cases op with
  | get g2 =>
    simp only [Op.step]
    by_cases hg : g = g2
    · subst hg
      rw [Getter.run_cached sv g s v hf]
      exact hf
    · rw [(Getter.run_effect sv g2 s).1 g hg]
      exact hf
  | db dbname =>
    simp only [Op.step]
    obtain ⟨h1, h2, h3, h4, h5, h6, _⟩ := GetDb_state sv dbname s
    cases g <;> simp only [Getter.field] at hf ⊢
    · rw [h1]; exact hf
    · rw [h2]; exact hf
    · rw [h3]; exact hf
    · rw [h4]; exact hf
    · rw [h5]; exact hf
    · rw [h6]; exact hf
  | jws =>
    simp only [Op.step, GetJwsHelper]
    cases sv.NewJwsHelper s.calls.length <;> exact hf

theorem runOps_preserves (sv : Services) (ops : List Op) (s : State) (g : Getter) (v : Ref)
    (hf : g.field s.App = some v) : g.field (runOps sv ops s).App = some v := by
  induction ops generalizing s with
  | nil => exact hf
  | cons op ops ih =>
    simp only [runOps, List.foldl_cons]
    exact ih _ (Op.step_preserves sv op s g v hf)

end app

/-- C9. For each of the six service getters, from every registry state and for every behaviour
of the constructors: (1) once a call has returned an instance, the same getter returns that
instance after any further sequence of registry calls, and leaves the state, with its record of
constructor calls, as it is; (2) when a call returns an error, the service's field is unset
after the call, and no external call was made twice during it; (3) a failure of
`NewAreaService`, of `GetDb("user")` or of `GetJwsHelper` on an unset field is returned,
wrapped, to the caller. -/
theorem registry_caching (sv : app.Services) (g : app.Getter) (s : app.State) :
    (∀ v, (g.run sv s).1 = Except.ok v → ∀ ops : List app.Op,
        g.run sv (app.runOps sv ops (g.run sv s).2) =
          (Except.ok v, app.runOps sv ops (g.run sv s).2)) ∧
    (∀ e, (g.run sv s).1 = Except.error e →
        g.field (g.run sv s).2.App = none ∧
          ∃ new, (g.run sv s).2.calls = s.calls ++ new ∧ new.Nodup) ∧
    (∀ err, s.App.areaSvc = none → sv.NewAreaService s.calls.length = Except.error err →
        (app.GetAreaService sv s).1 = Except.error (GoError.wrapped err "GetAreaService")) ∧
    (∀ err, g.field s.App = none → g ≠ app.Getter.area → g ≠ app.Getter.sms →
        (app.GetDb sv "user" s).1 = Except.error err →
        ∃ text, g.run sv s = (Except.error (GoError.wrapped err text), (app.GetDb sv "user" s).2)) ∧
    (∀ db err, s.App.UserSvr = none → (app.GetDb sv "user" s).1 = Except.ok db →
        (app.GetJwsHelper sv (app.GetDb sv "user" s).2).1 = Except.error err →
        (app.GetUserService sv s).1 = Except.error (GoError.wrapped err "GetJws")) := by
  obtain ⟨_, hok, herr, hcalls⟩ := app.Getter.run_effect sv g s
  refine ⟨?_, ?_, ?_, ?_, ?_⟩
  · intro v hv ops
    exact app.Getter.run_cached sv g _ v (app.runOps_preserves sv ops _ g v (hok v hv))
  · intro e he
    exact ⟨(herr e he).2, hcalls⟩
  · intro err hf hk
    simp [app.GetAreaService, hf, hk]
  · intro err hf hga hgs hdb
    cases hd : app.GetDb sv "user" s with
    | mk r s1 =>
      rw [hd] at hdb
      simp only at hdb
      subst hdb
      cases g
      · exact absurd rfl hga
      · exact absurd rfl hgs
      · exact ⟨"GetUserSerevice->GetDb", by
          simp only [app.Getter.field] at hf
          simp [app.Getter.run, app.GetUserService, hf, hd]⟩
      · exact ⟨"GetResourceService->GetDb", by
          simp only [app.Getter.field] at hf
          simp [app.Getter.run, app.GetResourceService, hf, hd]⟩
      · exact ⟨"GetGoodsService->GetDb", by
          simp only [app.Getter.field] at hf
          simp [app.Getter.run, app.GetGoodsService, hf, hd]⟩
      · exact ⟨"GetOrderService->GetDb", by
          simp only [app.Getter.field] at hf
          simp [app.Getter.run, app.GetOrderService, hf, hd]⟩
  · intro db err hf hdb hj
    cases hd : app.GetDb sv "user" s with
    | mk r s1 =>
      rw [hd] at hdb hj
      simp only at hdb hj
      subst hdb
      cases hj2 : app.GetJwsHelper sv s1 with
      | mk r2 s2 =>
        rw [hj2] at hj
        simp only at hj
        subst hj
        simp [app.GetUserService, hf, hd, hj2]

/-- C9 on the sample constructors: from the initial state the first `GetAreaService` fails and
leaves the field unset; the second call constructs the service; after three more registry
calls the getter returns the same instance and changes nothing. -/
theorem registry_caching_witness :
    (app.GetAreaService sample.services app.init).1 =
        Except.error (GoError.wrapped (GoError.msg "area root missing") "GetAreaService") ∧
    (app.GetAreaService sample.services app.init).2.App.areaSvc = none ∧
    (app.Getter.area.run sample.services (app.GetAreaService sample.services app.init).2).1 =
        Except.ok ⟨1⟩ ∧
    app.Getter.area.run sample.services
        (app.runOps sample.services
          [app.Op.get app.Getter.user, app.Op.db "order", app.Op.get app.Getter.area]
          (app.Getter.area.run sample.services
            (app.GetAreaService sample.services app.init).2).2) =
      (Except.ok ⟨1⟩,
        app.runOps sample.services
          [app.Op.get app.Getter.user, app.Op.db "order", app.Op.get app.Getter.area]
          (app.Getter.area.run sample.services
            (app.GetAreaService sample.services app.init).2).2) :=
  ⟨rfl, rfl, rfl,
    (registry_caching sample.services app.Getter.area
      (app.GetAreaService sample.services app.init).2).1 ⟨1⟩ rfl
      [app.Op.get app.Getter.user, app.Op.db "order", app.Op.get app.Getter.area]⟩

end Echo
